import Mathlib

/-!
Verification of the core pure components of `scripts/headless-test.py`
from the libiui repository:

* the MD3 DSL parser (`parse_dsl`, pattern table `COMPONENT_PROPS`),
* the compliance-check generator (`generate_md3_checks`, `SPEC_CONST_MAP`),
* the minimal PNG reader (`read_png`),
* the image comparator (`compare_images`).

The embedding is line-for-line faithful to the Python source.  Python
machine-level details are modelled as follows:

* `str` values are `List Char` (or `String` where the source stores them);
  `str.strip()` / `str.split` / `str.startswith` are modelled on the ASCII
  whitespace set (the DSL and all inputs of interest are ASCII);
* `re.match` against each concrete pattern of the source is hand-compiled
  into a deterministic prefix matcher (the patterns involved are
  backtracking-free: every greedy sub-pattern is followed by a character
  it can never consume);
* Python numbers: `float` values arising from `float(<digit string>)` are
  modelled exactly as rationals (`ℚ`), `int` as `ℤ`, so decimal literals
  like `40.05` and the threshold `0.1` are exact;
* Python exceptions are modelled with `Except PyErr`: `ValueError`
  (message kept), `struct.error`, `zlib.error` and `IndexError`;
* `zlib.decompress` (Python standard library) is modelled for streams made
  of stored (uncompressed) DEFLATE blocks, including the zlib header and
  Adler-32 trailer checks; Huffman-compressed blocks are treated as a
  decompression failure.  All claims are settled on stored-block streams,
  and no claim's verdict depends on the Huffman case.
-/

namespace HeadlessTest

/-! ### Python string primitives -/

/-- ASCII whitespace, the characters matched by `str.strip()` / `\s`
on the inputs of interest. -/
def isSpaceChar (c : Char) : Bool :=
  c = ' ' || c = '\t' || c = '\n' || c = '\r' || c = '\x0b' || c = '\x0c'

def isDigitChar (c : Char) : Bool :=
  '0' ≤ c && c ≤ '9'

/-- `\w` (ASCII): letters, digits, underscore. -/
def isWordChar (c : Char) : Bool :=
  ('a' ≤ c && c ≤ 'z') || ('A' ≤ c && c ≤ 'Z') || isDigitChar c || c = '_'

/-- `str.strip()`. -/
def pyStrip (l : List Char) : List Char :=
  ((l.dropWhile isSpaceChar).reverse.dropWhile isSpaceChar).reverse

/-- `content.split("\n")`. -/
def splitNl : List Char → List (List Char)
  | [] => [[]]
  | c :: r =>
    match splitNl r with
    | [] => [[c]]
    | l :: ls => if c = '\n' then [] :: l :: ls else (c :: l) :: ls

/-! ### Hand-compiled regex prefix matchers

Each matcher implements `re.match` for one concrete pattern of the source.
A matcher consumes a prefix of the line and returns the captured groups;
trailing characters are allowed, exactly as with `re.match`. -/

/-- Match a literal string, returning the rest of the input. -/
def lit : List Char → List Char → Option (List Char)
  | [], l => some l
  | _ :: _, [] => none
  | k :: ks, c :: cs => if c = k then lit ks cs else none

/-- `\s+` (greedy). -/
def ws1 (l : List Char) : Option (List Char) :=
  match l with
  | [] => none
  | c :: _ => if isSpaceChar c then some (l.dropWhile isSpaceChar) else none

/-- `\s*` (greedy). -/
def ws0 (l : List Char) : List Char :=
  l.dropWhile isSpaceChar

/-- Greedy span of word characters. -/
def wordSpan (l : List Char) : List Char × List Char :=
  (l.takeWhile isWordChar, l.dropWhile isWordChar)

/-- `(\d+(?:\.\d+)?)`: capture a decimal number, return (capture, rest).
The fractional part is taken only when a digit follows the dot, exactly
as the regex backtracks. -/
def matchNumber (l : List Char) : Option (List Char × List Char) :=
  let d := l.takeWhile isDigitChar
  let r := l.dropWhile isDigitChar
  if d.isEmpty then none
  else
    match r with
    | '.' :: r2 =>
      let d2 := r2.takeWhile isDigitChar
      if d2.isEmpty then some (d, r)
      else some (d ++ '.' :: d2, r2.dropWhile isDigitChar)
    | _ => some (d, r)

/-- `\s*(?:±(\d+))?` after a number: the optional tolerance group. -/
def matchTolOpt (l : List Char) : Option (List Char) :=
  match ws0 l with
  | '±' :: r2 =>
    let d := r2.takeWhile isDigitChar
    if d.isEmpty then none else some d
  | _ => none

/-- `<kw>\s+(\d+(?:\.\d+)?)` — shape of most property patterns. -/
def litWsNum (kw : List Char) (l : List Char) : Option (List Char) :=
  match lit kw l with
  | none => none
  | some r =>
    match ws1 r with
    | none => none
    | some r2 =>
      match matchNumber r2 with
      | none => none
      | some (cap, _) => some cap

/-- `<k1>\s+<k2>\s+(\d+(?:\.\d+)?)`. -/
def lit2WsNum (k1 k2 : List Char) (l : List Char) : Option (List Char) :=
  match lit k1 l with
  | none => none
  | some r =>
    match ws1 r with
    | none => none
    | some r2 =>
      match lit k2 r2 with
      | none => none
      | some r3 =>
        match ws1 r3 with
        | none => none
        | some r4 =>
          match matchNumber r4 with
          | none => none
          | some (cap, _) => some cap

/-- `<k1>\s+<k2>\s+(\d+(?:\.\d+)?)\s*(?:±(\d+))?`. -/
def lit2WsNumTol (k1 k2 : List Char) (l : List Char) :
    Option (List Char × Option (List Char)) :=
  match lit k1 l with
  | none => none
  | some r =>
    match ws1 r with
    | none => none
    | some r2 =>
      match lit k2 r2 with
      | none => none
      | some r3 =>
        match ws1 r3 with
        | none => none
        | some r4 =>
          match matchNumber r4 with
          | none => none
          | some (cap, rest) => some (cap, matchTolOpt rest)

/-- `COMPONENT\s+(\w+)\s*\{` — returns the captured identifier. -/
def matchCOMPONENT (l : List Char) : Option (List Char) :=
  match lit (("COMPONENT").data) l with
  | none => none
  | some r =>
    match ws1 r with
    | none => none
    | some r2 =>
      let (w, r3) := wordSpan r2
      if w.isEmpty then none
      else
        match ws0 r3 with
        | '\x7b' :: _ => some w
        | _ => none

/-- `GLOBAL\s+grid_unit\s+(\d+(?:\.\d+)?)`. -/
def matchGLOBALgrid (l : List Char) : Option (List Char) :=
  lit2WsNum (("GLOBAL").data) (("grid_unit").data) l

/-- One alternative of `(state_layer|shape|typography)\s*\{`. -/
def skipAlt (kw : List Char) (r : List Char) : Bool :=
  match lit kw r with
  | none => false
  | some r2 =>
    match ws0 r2 with
    | '\x7b' :: _ => true
    | _ => false

/-- `GLOBAL\s+(state_layer|shape|typography)\s*\{`. -/
def matchGLOBALskip (l : List Char) : Bool :=
  match lit (("GLOBAL").data) l with
  | none => false
  | some r =>
    match ws1 r with
    | none => false
    | some r2 =>
      skipAlt (("state_layer").data) r2 || skipAlt (("shape").data) r2 ||
        skipAlt (("typography").data) r2

/-- `corner_radius\s+@shape\.(\w+)`. -/
def matchCornerTok (l : List Char) : Option (List Char) :=
  match lit (("corner_radius").data) l with
  | none => none
  | some r =>
    match ws1 r with
    | none => none
    | some r2 =>
      match lit (("@shape.").data) r2 with
      | none => none
      | some r3 =>
        let (w, _) := wordSpan r3
        if w.isEmpty then none else some w

/-! ### Python number conversions -/

def digitsToNat (l : List Char) : Nat :=
  l.foldl (fun a c => a * 10 + (c.toNat - ('0').toNat)) 0

/-- `float(s)` on the digit-string captures produced by the number
patterns (`\d+` or `\d+.\d+`); other shapes — which never occur at the
call sites — are conversion failures. -/
def pyFloat (l : List Char) : Option ℚ :=
  let d := l.takeWhile isDigitChar
  let r := l.dropWhile isDigitChar
  if d.isEmpty then none
  else
    match r with
    | [] => some (digitsToNat d)
    | '.' :: r2 =>
      let d2 := r2.takeWhile isDigitChar
      let r3 := r2.dropWhile isDigitChar
      if d2.isEmpty then none
      else if r3.isEmpty then
        some ((digitsToNat d : ℚ) + (digitsToNat d2 : ℚ) / (10 ^ d2.length))
      else none
    | _ => none

/-- `int(s)` on digit strings. -/
def pyInt (l : List Char) : Option ℤ :=
  if l.isEmpty then none
  else if l.all isDigitChar then some (digitsToNat l) else none

/-! ### Data model (`Component`, `Spec`) -/

inductive PyErr where
  | valueError (msg : String)
  | structError
  | zlibError
  | indexError
  deriving DecidableEq, Repr

instance {ε α : Type} [DecidableEq ε] [DecidableEq α] :
    DecidableEq (Except ε α) := fun a b =>
  match a, b with
  | .ok x, .ok y => decidable_of_iff (x = y) (by simp)
  | .error x, .error y => decidable_of_iff (x = y) (by simp)
  | .ok _, .error _ => isFalse (by simp)
  | .error _, .ok _ => isFalse (by simp)

/-- `@dataclass class Component` of the source, fields in source order. -/
structure Component where
  name : String
  height_min : Option ℚ := none
  height_exact : Option ℚ := none
  height_tolerance : ℤ := 0
  size_exact : Option ℚ := none
  size_tolerance : ℤ := 0
  touch_target : Option ℚ := none
  corner_radius : Option ℚ := none
  corner_radius_token : Option String := none
  track_height : Option ℚ := none
  track_width : Option ℚ := none
  thumb_size : Option ℚ := none
  icon_size : Option ℚ := none
  padding_h : Option ℚ := none
  deriving DecidableEq, Repr

/-- `@dataclass class Spec`.  The `dict` of components is an insertion
ordered association list, matching Python dict semantics. -/
structure Spec where
  components : List (String × Component) := []
  grid_unit : ℚ := 4
  deriving DecidableEq, Repr

def freshComponent (nm : String) : Component := { name := nm }

/-- `spec.components[name] = comp`: Python dict assignment — replaces in
place if the key exists (keeping its position), else appends. -/
def dictInsert : List (String × Component) → String → Component →
    List (String × Component)
  | [], nm, c => [(nm, c)]
  | (k, v) :: r, nm, c =>
    if k = nm then (k, c) :: r else (k, v) :: dictInsert r nm c

/-- Mutating the `Component` object currently aliased by
`current_component`: the object is always the dict entry of the current
name (it is stored there at creation and only replaced together with a
reset of `current_component`), so the mutation is an update-by-key. -/
def dictUpdate : List (String × Component) → String → Component →
    List (String × Component)
  | [], _, _ => []
  | (k, v) :: r, nm, c =>
    if k = nm then (k, c) :: r else (k, v) :: dictUpdate r nm c

def alookup : List (String × Component) → String → Option Component
  | [], _ => none
  | (k, v) :: r, nm => if k = nm then some v else alookup r nm

/-! ### The property table loop

`COMPONENT_PROPS` is an ordered pattern table; the first matching pattern
wins (`break`).  `tryProps` runs the `for pattern, attr, conv in
COMPONENT_PROPS` loop of `parse_dsl` on one (stripped) line, against the
current component; the patterns appear in exact source order. -/

def tryProps (c : Component) (l : List Char) : Except PyErr Component :=
  -- r"height\s+MIN\s+(\d+(?:\.\d+)?)" → height_min, float
  match lit2WsNum (("height").data) (("MIN").data) l with
  | some cap =>
    match pyFloat cap with
    | some v => .ok { c with height_min := some v }
    | none => .error (.valueError ("could not convert string to float"))
  | none =>
  -- r"height\s+EXACT\s+(\d+(?:\.\d+)?)\s*(?:±(\d+))?" → height_exact, float
  match lit2WsNumTol (("height").data) (("EXACT").data) l with
  | some (cap, otol) =>
    match pyFloat cap with
    | some v =>
      match otol with
      | none => .ok { c with height_exact := some v }
      | some d =>
        match pyInt d with
        | some t => .ok { c with height_exact := some v, height_tolerance := t }
        | none => .error (.valueError ("invalid literal for int"))
    | none => .error (.valueError ("could not convert string to float"))
  | none =>
  -- r"size\s+EXACT\s+(\d+(?:\.\d+)?)\s*(?:±(\d+))?" → size_exact, float
  match lit2WsNumTol (("size").data) (("EXACT").data) l with
  | some (cap, otol) =>
    match pyFloat cap with
    | some v =>
      match otol with
      | none => .ok { c with size_exact := some v }
      | some d =>
        match pyInt d with
        | some t => .ok { c with size_exact := some v, size_tolerance := t }
        | none => .error (.valueError ("invalid literal for int"))
    | none => .error (.valueError ("could not convert string to float"))
  | none =>
  -- r"touch_target\s+(\d+(?:\.\d+)?)" → touch_target, float
  match litWsNum (("touch_target").data) l with
  | some cap =>
    match pyFloat cap with
    | some v => .ok { c with touch_target := some v }
    | none => .error (.valueError ("could not convert string to float"))
  | none =>
  -- r"corner_radius\s+@shape\.(\w+)" → corner_radius_token, str
  match matchCornerTok l with
  | some w => .ok { c with corner_radius_token := some (String.mk w) }
  | none =>
  -- r"corner_radius\s+(\d+(?:\.\d+)?)" → corner_radius, float
  match litWsNum (("corner_radius").data) l with
  | some cap =>
    match pyFloat cap with
    | some v => .ok { c with corner_radius := some v }
    | none => .error (.valueError ("could not convert string to float"))
  | none =>
  -- r"track_height\s+(\d+(?:\.\d+)?)" → track_height, float
  match litWsNum (("track_height").data) l with
  | some cap =>
    match pyFloat cap with
    | some v => .ok { c with track_height := some v }
    | none => .error (.valueError ("could not convert string to float"))
  | none =>
  -- r"track_width\s+(\d+(?:\.\d+)?)" → track_width, float
  match litWsNum (("track_width").data) l with
  | some cap =>
    match pyFloat cap with
    | some v => .ok { c with track_width := some v }
    | none => .error (.valueError ("could not convert string to float"))
  | none =>
  -- r"thumb_size\s+(\d+(?:\.\d+)?)" → thumb_size, float
  match litWsNum (("thumb_size").data) l with
  | some cap =>
    match pyFloat cap with
    | some v => .ok { c with thumb_size := some v }
    | none => .error (.valueError ("could not convert string to float"))
  | none =>
  -- r"icon_size\s+(\d+(?:\.\d+)?)" → icon_size, float
  match litWsNum (("icon_size").data) l with
  | some cap =>
    match pyFloat cap with
    | some v => .ok { c with icon_size := some v }
    | none => .error (.valueError ("could not convert string to float"))
  | none =>
  -- r"padding_h\s+(\d+(?:\.\d+)?)" → padding_h, float
  match litWsNum (("padding_h").data) l with
  | some cap =>
    match pyFloat cap with
    | some v => .ok { c with padding_h := some v }
    | none => .error (.valueError ("could not convert string to float"))
  | none => .ok c

/-! ### The parser state machine -/

/-- Parser state: the document built so far, `current_component`
(represented by its dict key, see `dictUpdate`), and `current_block`
(which only ever holds `None` or `"skip"`, hence a `Bool`). -/
structure PState where
  spec : Spec
  current : Option String
  skip : Bool
  deriving DecidableEq, Repr

def initState : PState := ⟨{}, none, false⟩

/-- Body of one loop iteration of `parse_dsl`, applied to the stripped
line `l = line.strip()`, in exact source order. -/
def stepCore (st : PState) (l : List Char) : Except PyErr PState :=
  -- `if not line or line.startswith("#"): continue`
  if l.isEmpty || l.head? = some '#' then .ok st
  else
    -- `if m := re.match(r"COMPONENT\s+(\w+)\s*\{", line)`
    match matchCOMPONENT l with
    | some w =>
      let nm := String.mk w
      .ok { st with
              spec := { st.spec with
                          components := dictInsert st.spec.components nm
                            (freshComponent nm) },
              current := some nm }
    | none =>
    -- `if m := re.match(r"GLOBAL\s+grid_unit\s+(\d+(?:\.\d+)?)", line)`
    match matchGLOBALgrid l with
    | some cap =>
      match pyFloat cap with
      | some v => .ok { st with spec := { st.spec with grid_unit := v } }
      | none => .error (.valueError ("could not convert string to float"))
    | none =>
    -- `if re.match(r"GLOBAL\s+(state_layer|shape|typography)\s*\{", line)`
    if matchGLOBALskip l then .ok { st with skip := true }
    -- `if line == "}"`
    else if l = ['\x7d'] then
      if st.skip then .ok { st with skip := false }
      else .ok { st with current := none }
    -- `if current_block == "skip": continue`
    else if st.skip then .ok st
    else
      -- `if current_component:` — property pattern loop
      match st.current with
      | none => .ok st
      | some nm =>
        match alookup st.spec.components nm with
        | none => .ok st
        | some c =>
          match tryProps c l with
          | .ok c' =>
            .ok { st with
                    spec := { st.spec with
                                components := dictUpdate st.spec.components nm c' } }
          | .error e => .error e

/-- One iteration of the `for line in content.split("\n")` loop of
`parse_dsl`: `line = line.strip()`, then the body. -/
def step (st : PState) (rawLine : List Char) : Except PyErr PState :=
  stepCore st (pyStrip rawLine)

def parseLinesE : PState → List (List Char) → Except PyErr PState
  | st, [] => .ok st
  | st, l :: ls =>
    match step st l with
    | .ok st' => parseLinesE st' ls
    | .error e => .error e

/-- `parse_dsl`, instrumented with Python-level exceptions (none ever
occur — see the totality theorem). -/
def parse_dsl_e (s : String) : Except PyErr Spec :=
  match parseLinesE initState (splitNl s.data) with
  | .ok st => .ok st.spec
  | .error e => .error e

/-- `parse_dsl(content) -> Spec`. -/
def parse_dsl (s : String) : Spec :=
  match parse_dsl_e s with
  | .ok sp => sp
  | .error _ => {}

/-! ### MD3 compliance-check generator (`SPEC_CONST_MAP`, `generate_md3_checks`) -/

/-- The fixed invariant table of the source: component name ↦
(DSL attribute name, iui-spec.h constant name, expected numeric value).
Expected values are Python `int` literals, kept as `ℤ`. -/
def SPEC_CONST_MAP : List (String × List (String × String × ℤ)) := [
  ("button", [("height_min", "IUI_BUTTON_HEIGHT", 40)]),
  ("textfield", [("height_min", "IUI_TEXTFIELD_HEIGHT", 56)]),
  ("switch", [("track_width", "IUI_SWITCH_TRACK_WIDTH", 52),
              ("track_height", "IUI_SWITCH_TRACK_HEIGHT", 32)]),
  ("chip", [("height_min", "IUI_CHIP_HEIGHT", 32)]),
  ("fab", [("size_exact", "IUI_FAB_SIZE", 56)]),
  ("segmented", [("height_exact", "IUI_SEGMENTED_HEIGHT", 40),
                 ("icon_size", "IUI_SEGMENTED_ICON_SIZE", 18)]),
  ("slider", [("track_height", "IUI_SLIDER_TRACK_HEIGHT", 4)]),
  ("tab", [("height_min", "IUI_TAB_HEIGHT", 48)]),
  ("search_bar", [("height_min", "IUI_SEARCH_BAR_HEIGHT", 56),
                  ("corner_radius", "IUI_SEARCH_BAR_CORNER_RADIUS", 28)]),
  ("dialog", [("min_width", "IUI_DIALOG_MIN_WIDTH", 280)]),
  ("nav_bar", [("height_exact", "IUI_NAV_BAR_HEIGHT", 80)]),
  ("nav_rail", [("width_exact", "IUI_NAV_RAIL_WIDTH", 80),
                ("item_height", "IUI_NAV_RAIL_ITEM_HEIGHT", 56)]),
  ("nav_drawer", [("width_exact", "IUI_NAV_DRAWER_WIDTH", 280),
                  ("item_height", "IUI_NAV_DRAWER_ITEM_HEIGHT", 56)]),
  ("appbar_small", [("height_exact", "IUI_APPBAR_SMALL_HEIGHT", 64)]),
  ("appbar_medium", [("height_exact", "IUI_APPBAR_MEDIUM_HEIGHT", 112)]),
  ("appbar_large", [("height_exact", "IUI_APPBAR_LARGE_HEIGHT", 152)]),
  ("list_item_one_line", [("height_exact", "IUI_LIST_ONE_LINE_HEIGHT", 56)]),
  ("list_item_two_line", [("height_exact", "IUI_LIST_TWO_LINE_HEIGHT", 72)]),
  ("list_item_three_line", [("height_exact", "IUI_LIST_THREE_LINE_HEIGHT", 88)])]

def mapLookup : List (String × List (String × String × ℤ)) → String →
    Option (List (String × String × ℤ))
  | [], _ => none
  | (k, v) :: r, nm => if k = nm then some v else mapLookup r nm

/-- `getattr(comp, attr, None)` for the attribute names occurring in
`SPEC_CONST_MAP`.  `min_width`, `width_exact` and `item_height` are not
fields of `Component`, so `getattr` yields the `None` default for them. -/
def getAttrQ (c : Component) (attr : String) : Option ℚ :=
  if attr = "height_min" then c.height_min
  else if attr = "height_exact" then c.height_exact
  else if attr = "size_exact" then c.size_exact
  else if attr = "track_height" then c.track_height
  else if attr = "track_width" then c.track_width
  else if attr = "icon_size" then c.icon_size
  else if attr = "corner_radius" then c.corner_radius
  else none

/-- One emitted compliance check, identified by
(component name, attribute, constant name, expected value) — the data
interpolated into the generated C line. -/
structure Check where
  comp : String
  attr : String
  constName : String
  expected : ℤ
  deriving DecidableEq, Repr

/-- The generated C source line for one check. -/
def renderCheck (ck : Check) : String :=
  "    check(\"" ++ ck.comp ++ "_" ++ ck.attr ++ "\", (int)" ++ ck.constName ++
    " == " ++ toString ck.expected ++ " ? 0 : 1);"

/-- Inner loop of `generate_md3_checks`: the checks for one component,
in table order.  A check is kept iff the DSL attribute is set and
`abs(val - expected) < 0.1`. -/
def checksFor (nm : String) (c : Component) :
    List (String × String × ℤ) → List Check
  | [] => []
  | (attr, constName, expected) :: rest =>
    match getAttrQ c attr with
    | none => checksFor nm c rest
    | some v =>
      if |v - (expected : ℚ)| < 1 / 10 then
        ⟨nm, attr, constName, expected⟩ :: checksFor nm c rest
      else checksFor nm c rest

/-- The list of checks emitted by `generate_md3_checks`, before string
rendering, in emission order. -/
def md3_checks_list : List (String × Component) → List Check
  | [] => []
  | (nm, c) :: rest =>
    (match mapLookup SPEC_CONST_MAP nm with
     | none => []
     | some mapping => checksFor nm c mapping) ++ md3_checks_list rest

def md3_checks (spec : Spec) : List Check :=
  md3_checks_list spec.components

/-- `generate_md3_checks(spec) -> str`: `"\n".join(checks)`. -/
def generate_md3_checks (spec : Spec) : String :=
  String.intercalate "\n" ((md3_checks spec).map renderCheck)

/-! ### Image comparator (`compare_images`) -/

/-- A decoded pixel: the ordered (R, G, B, A) channels. -/
def Pixel := ℕ × ℕ × ℕ × ℕ
deriving DecidableEq, Repr

/-- `abs(c1 - c2)` on Python ints. -/
def chanDiff (a b : ℕ) : ℕ := ((a : ℤ) - (b : ℤ)).natAbs

/-- `any(abs(c1 - c2) > tolerance for c1, c2 in zip(p1, p2))`. -/
def pixelDiffers (p q : Pixel) (tol : ℕ) : Bool :=
  decide (tol < chanDiff p.1 q.1) || decide (tol < chanDiff p.2.1 q.2.1) ||
    decide (tol < chanDiff p.2.2.1 q.2.2.1) || decide (tol < chanDiff p.2.2.2 q.2.2.2)

/-- The diff-counting loop `for i, (p1, p2) in enumerate(zip(px1, px2))`. -/
def countDiff (tol : ℕ) : List Pixel → List Pixel → ℕ
  | p :: ps, q :: qs =>
    (if pixelDiffers p q tol then 1 else 0) + countDiff tol ps qs
  | _, _ => 0

/-- `compare_images(img1, img2, tolerance) -> (match, similarity, diff_pixels)`,
where an image is the `(width, height, pixels)` triple produced by
`read_png`. -/
def compare_images (img1 img2 : ℕ × ℕ × List Pixel) (tol : ℕ) :
    Bool × ℚ × ℕ :=
  let (w1, h1, px1) := img1
  let (w2, h2, px2) := img2
  if w1 ≠ w2 ∨ h1 ≠ h2 then (false, 0, w1 * h1)
  else
    let diff := countDiff tol px1 px2
    let total := w1 * h1
    let sim : ℚ := if 0 < total then 100 * ((total : ℚ) - (diff : ℚ)) / (total : ℚ) else 0
    (decide (diff = 0), sim, diff)

/-! ### PNG reader (`read_png`) -/

/-- `b"\x89PNG\r\n\x1a\n"`. -/
def pngSig : List ℕ := [137, 80, 78, 71, 13, 10, 26, 10]

def ihdrType : List ℕ := [73, 72, 68, 82]
def idatType : List ℕ := [73, 68, 65, 84]
def iendType : List ℕ := [73, 69, 78, 68]

/-- `struct.unpack(">I", b)[0]` for a 4-byte buffer: big-endian value. -/
def be32val : List ℕ → ℕ
  | [a, b, c, d] => ((a * 256 + b) * 256 + c) * 256 + d
  | _ => 0

/-- Big-endian 4-byte encoding (used to build concrete test inputs). -/
def be32 (n : ℕ) : List ℕ :=
  [n / 2 ^ 24 % 256, n / 2 ^ 16 % 256, n / 2 ^ 8 % 256, n % 256]

/-- The `while True` chunk loop of `read_png`, operating on the bytes
after the signature.  `fuel` bounds the iteration count; every iteration
either terminates or consumes at least 4 bytes after verifying that 4
length bytes are present, so `fuel = length + 1` is never exhausted.
Per iteration: read 4 length bytes (`struct.error` when fewer remain),
4 type bytes, `chunk_len` data bytes and 4 CRC bytes (shortened silently
at EOF, like `file.read`); IHDR stores width/height and validates
bit depth/colour type, IDAT accumulates the compressed stream, IEND
terminates. -/
def chunkScan : ℕ → List ℕ → ℕ → ℕ → List ℕ →
    Except PyErr (ℕ × ℕ × List ℕ)
  | 0, _, _, _, _ => .error .structError
  | fuel + 1, s, w, h, comp =>
    if (s.take 4).length = 4 then
      let n := be32val (s.take 4)
      let s1 := s.drop 4
      let ctype := s1.take 4
      let body := s1.drop 4
      let cdata := body.take n
      let rest := (body.drop n).drop 4
      if ctype = ihdrType then
        if (cdata.take 4).length = 4 then
          if ((cdata.drop 4).take 4).length = 4 then
            match cdata.get? 8, cdata.get? 9 with
            | some bd, some ct =>
              if bd ≠ 8 ∨ ct ≠ 6 then
                .error (.valueError ("Only 8-bit RGBA PNGs supported"))
              else
                chunkScan fuel rest (be32val (cdata.take 4))
                  (be32val ((cdata.drop 4).take 4)) comp
            | _, _ => .error .indexError
          else .error .structError
        else .error .structError
      else if ctype = idatType then chunkScan fuel rest w h (comp ++ cdata)
      else if ctype = iendType then .ok (w, h, comp)
      else chunkScan fuel rest w h comp
    else .error .structError

/-- Adler-32 accumulator, `(a, b)` state. -/
def adlerGo : ℕ → ℕ → List ℕ → ℕ
  | a, b, [] => b * 65536 + a
  | a, b, x :: r => adlerGo ((a + x) % 65521) ((b + (a + x) % 65521) % 65521) r

def adler32 (l : List ℕ) : ℕ := adlerGo 1 0 l

/-- DEFLATE block loop of `zlib.decompress`, for streams of stored
(uncompressed) blocks.  Returns (output, bytes after the final block).
Huffman-compressed block types are treated as a decompression failure
(see the header comment).  `fuel = length + 1` is never exhausted: every
recursing iteration consumes at least 5 bytes. -/
def inflateBlocks : ℕ → List ℕ → List ℕ → Except PyErr (List ℕ × List ℕ)
  | 0, _, _ => .error .zlibError
  | fuel + 1, input, acc =>
    match input with
    | [] => .error .zlibError
    | b :: r =>
      let final := b % 2
      let btype := b / 2 % 4
      if btype = 0 then
        match r with
        | l0 :: l1 :: n0 :: n1 :: r2 =>
          let len := l0 + 256 * l1
          let nlen := n0 + 256 * n1
          if len + nlen ≠ 65535 then .error .zlibError
          else if r2.length < len then .error .zlibError
          else if final = 1 then .ok (acc ++ r2.take len, r2.drop len)
          else inflateBlocks fuel (r2.drop len) (acc ++ r2.take len)
        | _ => .error .zlibError
      else .error .zlibError

/-- `zlib.decompress`: zlib header validation (method 8, window size,
header checksum, no preset dictionary), stored-block inflation, and
Adler-32 trailer verification. -/
def zlibDecompress (l : List ℕ) : Except PyErr (List ℕ) :=
  match l with
  | cmf :: flg :: rest =>
    if cmf % 16 ≠ 8 then .error .zlibError
    else if cmf / 16 > 7 then .error .zlibError
    else if (cmf * 256 + flg) % 31 ≠ 0 then .error .zlibError
    else if flg / 32 % 2 = 1 then .error .zlibError
    else
      match inflateBlocks (rest.length + 1) rest [] with
      | .error e => .error e
      | .ok (out, trail) =>
        match trail with
        | a0 :: a1 :: a2 :: a3 :: _ =>
          if ((a0 * 256 + a1) * 256 + a2) * 256 + a3 = adler32 out then .ok out
          else .error .zlibError
        | _ => .error .zlibError
  | _ => .error .zlibError

/-- `raw[idx], raw[idx+1], raw[idx+2], raw[idx+3]` — the four channel
reads of one pixel; `IndexError` past the end. -/
def getPixel (raw : List ℕ) (idx : ℕ) : Except PyErr Pixel :=
  match raw.get? idx, raw.get? (idx + 1), raw.get? (idx + 2), raw.get? (idx + 3) with
  | some r, some g, some b, some a => .ok (r, g, b, a)
  | _, _, _, _ => .error .indexError

/-- `for y in range(h)` / `for x in range(w)` loop counters. -/
def countUp : ℕ → ℕ → List ℕ
  | _, 0 => []
  | s, n + 1 => s :: countUp (s + 1) n

/-- Effectful map, the translation of a `for` loop that appends one
result per iteration and propagates exceptions. -/
def exMap (f : ℕ → Except PyErr α) : List ℕ → Except PyErr (List α)
  | [] => .ok []
  | x :: xs =>
    match f x with
    | .error e => .error e
    | .ok y =>
      match exMap f xs with
      | .error e => .error e
      | .ok ys => .ok (y :: ys)

/-- Flattening of the per-row pixel lists; the source appends pixels to
one flat list in the same order. -/
def concatAll : List (List α) → List α
  | [] => []
  | l :: ls => l ++ concatAll ls

/-- `read_png(path) -> (width, height, pixels)`, on the file's bytes.
Row extraction: `row_bytes = 1 + width*4`, `row_start = y*row_bytes + 1`
(the filter byte is skipped unconditionally), `idx = row_start + x*4`. -/
def read_png (bs : List ℕ) : Except PyErr (ℕ × ℕ × List Pixel) :=
  if bs.take 8 ≠ pngSig then .error (.valueError ("Not a valid PNG file"))
  else
    match chunkScan (bs.length + 1) (bs.drop 8) 0 0 [] with
    | .error e => .error e
    | .ok (w, h, comp) =>
      match zlibDecompress comp with
      | .error e => .error e
      | .ok raw =>
        match exMap (fun y =>
            exMap (fun x => getPixel raw (y * (1 + w * 4) + 1 + x * 4))
              (countUp 0 w)) (countUp 0 h) with
        | .error e => .error e
        | .ok rows => .ok (w, h, concatAll rows)

/-! ## Lemmas about captures and conversions

The number patterns only capture strings of the shape `\d+` or
`\d+.\d+`, and `float` / `int` succeed on those. -/

theorem takeWhile_all (p : Char → Bool) (l : List Char) :
    (l.takeWhile p).all p = true := by
  induction l with
  | nil => rfl
  | cons c r ih =>
    by_cases h : p c <;> simp [List.takeWhile_cons, h, ih]

theorem takeWhile_of_all {p : Char → Bool} {l : List Char}
    (h : l.all p = true) : l.takeWhile p = l := by
  induction l with
  | nil => rfl
  | cons c r ih =>
    simp only [List.all_cons, Bool.and_eq_true] at h
    simp [List.takeWhile_cons, h.1, ih h.2]

theorem dropWhile_of_all {p : Char → Bool} {l : List Char}
    (h : l.all p = true) : l.dropWhile p = [] := by
  induction l with
  | nil => rfl
  | cons c r ih =>
    simp only [List.all_cons, Bool.and_eq_true] at h
    simp [List.dropWhile_cons, h.1, ih h.2]

theorem takeWhile_append_stop {p : Char → Bool} {c : Char}
    (hc : p c = false) {l t : List Char} (h : l.all p = true) :
    ((l ++ c :: t).takeWhile p) = l := by
  induction l with
  | nil => simp [List.takeWhile_cons, hc]
  | cons d r ih =>
    simp only [List.all_cons, Bool.and_eq_true] at h
    simp [List.takeWhile_cons, h.1, ih h.2]

theorem dropWhile_append_stop {p : Char → Bool} {c : Char}
    (hc : p c = false) {l t : List Char} (h : l.all p = true) :
    ((l ++ c :: t).dropWhile p) = c :: t := by
  induction l with
  | nil => simp [List.dropWhile_cons, hc]
  | cons d r ih =>
    simp only [List.all_cons, Bool.and_eq_true] at h
    simp [List.dropWhile_cons, h.1, ih h.2]

theorem pyFloat_digits {d : List Char} (hne : ¬d.isEmpty = true)
    (hall : d.all isDigitChar = true) :
    pyFloat d = some ((digitsToNat d : ℚ)) := by
  simp only [pyFloat, takeWhile_of_all hall, dropWhile_of_all hall]
  simp [hne]

theorem pyFloat_decimal {d d2 : List Char} (hne : ¬d.isEmpty = true)
    (hall : d.all isDigitChar = true) (hne2 : ¬d2.isEmpty = true)
    (hall2 : d2.all isDigitChar = true) :
    pyFloat (d ++ '.' :: d2) =
      some ((digitsToNat d : ℚ) + (digitsToNat d2 : ℚ) / (10 ^ d2.length)) := by
  have hdot : isDigitChar '.' = false := by decide
  simp only [pyFloat, takeWhile_append_stop hdot hall,
    dropWhile_append_stop hdot hall, takeWhile_of_all hall2,
    dropWhile_of_all hall2]
  simp [hne, hne2]

theorem matchNumber_pyFloat {l cap r : List Char}
    (h : matchNumber l = some (cap, r)) : (pyFloat cap).isSome = true := by
  have hall : (l.takeWhile isDigitChar).all isDigitChar = true :=
    takeWhile_all _ _
  simp only [matchNumber] at h
  split at h
  · exact absurd h (by simp)
  · rename_i h1
    split at h
    · rename_i r2 heq
      split at h
      · simp only [Option.some.injEq, Prod.mk.injEq] at h
        rw [← h.1]
        rw [pyFloat_digits h1 hall]
        rfl
      · rename_i h2
        simp only [Option.some.injEq, Prod.mk.injEq] at h
        rw [← h.1]
        rw [pyFloat_decimal h1 hall h2 (takeWhile_all _ _)]
        rfl
    · simp only [Option.some.injEq, Prod.mk.injEq] at h
      rw [← h.1]
      rw [pyFloat_digits h1 hall]
      rfl

theorem matchTolOpt_pyInt {l d : List Char} (h : matchTolOpt l = some d) :
    (pyInt d).isSome = true := by
  simp only [matchTolOpt] at h
  split at h
  · rename_i r2 heq
    split at h
    · exact absurd h (by simp)
    · rename_i h2
      simp only [Option.some.injEq] at h
      subst h
      unfold pyInt
      simp [h2, takeWhile_all]
  · exact absurd h (by simp)

theorem litWsNum_pyFloat {kw l cap : List Char} (h : litWsNum kw l = some cap) :
    (pyFloat cap).isSome = true := by
  simp only [litWsNum] at h
  split at h
  · exact absurd h (by simp)
  · split at h
    · exact absurd h (by simp)
    · split at h
      · exact absurd h (by simp)
      · rename_i r2 p c rr h5
        simp only [Option.some.injEq] at h
        subst h
        exact matchNumber_pyFloat h5

theorem lit2WsNum_pyFloat {k1 k2 l cap : List Char}
    (h : lit2WsNum k1 k2 l = some cap) : (pyFloat cap).isSome = true := by
  simp only [lit2WsNum] at h
  split at h
  · exact absurd h (by simp)
  · split at h
    · exact absurd h (by simp)
    · split at h
      · exact absurd h (by simp)
      · split at h
        · exact absurd h (by simp)
        · split at h
          · exact absurd h (by simp)
          · rename_i h5
            simp only [Option.some.injEq] at h
            subst h
            exact matchNumber_pyFloat h5

theorem lit2WsNumTol_ok {k1 k2 l : List Char} {cap : List Char}
    {otol : Option (List Char)} (h : lit2WsNumTol k1 k2 l = some (cap, otol)) :
    (pyFloat cap).isSome = true ∧
      ∀ d, otol = some d → (pyInt d).isSome = true := by
  simp only [lit2WsNumTol] at h
  split at h
  · exact absurd h (by simp)
  · split at h
    · exact absurd h (by simp)
    · split at h
      · exact absurd h (by simp)
      · split at h
        · exact absurd h (by simp)
        · split at h
          · exact absurd h (by simp)
          · rename_i h5
            simp only [Option.some.injEq, Prod.mk.injEq] at h
            refine ⟨?_, ?_⟩
            · rw [← h.1]
              exact matchNumber_pyFloat h5
            · intro d hd
              rw [← h.2] at hd
              exact matchTolOpt_pyInt hd

/-! ## Totality of the parser -/

/-- The property-pattern loop never raises: every conversion is applied
to a capture on which it succeeds. -/
theorem tryProps_ok (c : Component) (l : List Char) :
    ∃ c', tryProps c l = .ok c' := by
  unfold tryProps
  split
  · rename_i cap h1
    obtain ⟨v, hv⟩ := Option.isSome_iff_exists.mp (lit2WsNum_pyFloat h1)
    rw [hv]
    exact ⟨_, rfl⟩
  · split
    · rename_i cap otol h2
      obtain ⟨hf, ht⟩ := lit2WsNumTol_ok h2
      obtain ⟨v, hv⟩ := Option.isSome_iff_exists.mp hf
      rw [hv]
      cases otol with
      | none => exact ⟨_, rfl⟩
      | some d =>
        obtain ⟨t, hti⟩ := Option.isSome_iff_exists.mp (ht d rfl)
        simp only [hti]
        exact ⟨_, rfl⟩
    · split
      · rename_i cap otol h3
        obtain ⟨hf, ht⟩ := lit2WsNumTol_ok h3
        obtain ⟨v, hv⟩ := Option.isSome_iff_exists.mp hf
        rw [hv]
        cases otol with
        | none => exact ⟨_, rfl⟩
        | some d =>
          obtain ⟨t, hti⟩ := Option.isSome_iff_exists.mp (ht d rfl)
          simp only [hti]
          exact ⟨_, rfl⟩
      · split
        · rename_i cap h4
          obtain ⟨v, hv⟩ := Option.isSome_iff_exists.mp (litWsNum_pyFloat h4)
          rw [hv]
          exact ⟨_, rfl⟩
        · split
          · exact ⟨_, rfl⟩
          · split
            · rename_i cap h6
              obtain ⟨v, hv⟩ := Option.isSome_iff_exists.mp (litWsNum_pyFloat h6)
              rw [hv]
              exact ⟨_, rfl⟩
            · split
              · rename_i cap h7
                obtain ⟨v, hv⟩ := Option.isSome_iff_exists.mp (litWsNum_pyFloat h7)
                rw [hv]
                exact ⟨_, rfl⟩
              · split
                · rename_i cap h8
                  obtain ⟨v, hv⟩ := Option.isSome_iff_exists.mp (litWsNum_pyFloat h8)
                  rw [hv]
                  exact ⟨_, rfl⟩
                · split
                  · rename_i cap h9
                    obtain ⟨v, hv⟩ := Option.isSome_iff_exists.mp (litWsNum_pyFloat h9)
                    rw [hv]
                    exact ⟨_, rfl⟩
                  · split
                    · rename_i cap h10
                      obtain ⟨v, hv⟩ :=
                        Option.isSome_iff_exists.mp (litWsNum_pyFloat h10)
                      rw [hv]
                      exact ⟨_, rfl⟩
                    · split
                      · rename_i cap h11
                        obtain ⟨v, hv⟩ :=
                          Option.isSome_iff_exists.mp (litWsNum_pyFloat h11)
                        rw [hv]
                        exact ⟨_, rfl⟩
                      · exact ⟨_, rfl⟩

/-- The loop-iteration body never raises. -/
theorem stepCore_ok (st : PState) (l : List Char) :
    ∃ st', stepCore st l = .ok st' := by
  unfold stepCore
  by_cases hb : (l.isEmpty || l.head? = some '#') = true
  · rw [if_pos hb]
    exact ⟨_, rfl⟩
  · rw [if_neg hb]
    split
    · exact ⟨_, rfl⟩
    · split
      · rename_i cap h2
        have h2g : lit2WsNum (("GLOBAL").data) (("grid_unit").data) l =
            some cap := h2
        obtain ⟨v, hv⟩ := Option.isSome_iff_exists.mp (lit2WsNum_pyFloat h2g)
        rw [hv]
        exact ⟨_, rfl⟩
      · by_cases h3 : matchGLOBALskip l = true
        · rw [if_pos h3]
          exact ⟨_, rfl⟩
        · rw [if_neg h3]
          by_cases h4 : l = ['\x7d']
          · rw [if_pos h4]
            by_cases h5 : st.skip = true
            · rw [if_pos h5]; exact ⟨_, rfl⟩
            · rw [if_neg h5]; exact ⟨_, rfl⟩
          · rw [if_neg h4]
            by_cases h5 : st.skip = true
            · rw [if_pos h5]; exact ⟨_, rfl⟩
            · rw [if_neg h5]
              split
              · exact ⟨_, rfl⟩
              · rename_i nm
                split
                · exact ⟨_, rfl⟩
                · rename_i c h7
                  obtain ⟨c', hc'⟩ := tryProps_ok c l
                  rw [hc']
                  exact ⟨_, rfl⟩

/-- One loop iteration of `parse_dsl` never raises. -/
theorem step_ok (st : PState) (l : List Char) : ∃ st', step st l = .ok st' :=
  stepCore_ok st (pyStrip l)

theorem parseLinesE_ok (ls : List (List Char)) :
    ∀ st, ∃ st', parseLinesE st ls = .ok st' := by
  induction ls with
  | nil => intro st; exact ⟨st, rfl⟩
  | cons l ls ih =>
    intro st
    obtain ⟨st1, h1⟩ := step_ok st l
    obtain ⟨st2, h2⟩ := ih st1
    exact ⟨st2, by simp [parseLinesE, h1, h2]⟩

/-- C1: the DSL parser is total — for every input string `parse_dsl`
returns a `Spec` and no Python exception is ever raised (every branch of
the instrumented parser `parse_dsl_e` that could raise is unreachable:
each numeric conversion is applied to a capture of a digit pattern). -/
theorem parse_dsl_total (s : String) :
    ∃ spec : Spec, parse_dsl_e s = .ok spec ∧ parse_dsl s = spec := by
  obtain ⟨st, h⟩ := parseLinesE_ok (splitNl s.data) initState
  refine ⟨st.spec, ?_, ?_⟩
  · simp [parse_dsl_e, h]
  · simp [parse_dsl, parse_dsl_e, h]

/-! ## Skip-mode behaviour (C2) -/

/-- C2 counterexample: a `GLOBAL grid_unit 8` line inside a
`GLOBAL shape { ... }` skip block is *not* discarded — the claim says
every line up to the first bare `}` is discarded with no effect on the
document, but the parser tests the `COMPONENT`/`GLOBAL` patterns before
the skip-mode check, so the grid unit changes from its default 4 to 8. -/
theorem skip_mode_leak_cex :
    parse_dsl ("GLOBAL shape \x7b\nGLOBAL grid_unit 8\n\x7d") =
      { components := [], grid_unit := 8 } := by
  decide

/-- C2 (amended): while in skip mode, a line that matches none of the
`COMPONENT <id> {`, `GLOBAL grid_unit <n>`, `GLOBAL <skip-kind> {`
patterns, is not blank or a comment, and is not a bare `}`, is discarded
with no effect; the first bare `}` exits skip mode without closing the
enclosing component (the current component and document are unchanged);
and a skip block with no such pattern-matching lines followed by
`COMPONENT x { corner_radius 12 }` yields `x.corner_radius == 12`. -/
theorem skip_mode_behavior :
    (∀ (st : PState) (raw : List Char), st.skip = true →
        pyStrip raw ≠ [] → (pyStrip raw).head? ≠ some '#' →
        matchCOMPONENT (pyStrip raw) = none →
        matchGLOBALgrid (pyStrip raw) = none →
        matchGLOBALskip (pyStrip raw) = false →
        pyStrip raw ≠ ['\x7d'] →
        step st raw = .ok st) ∧
    (∀ (st : PState) (raw : List Char), st.skip = true →
        pyStrip raw = ['\x7d'] →
        step st raw = .ok ⟨st.spec, st.current, false⟩) ∧
    parse_dsl
        ("GLOBAL shape \x7b\ncorner_radius 999\n\x7d\nCOMPONENT x \x7b\ncorner_radius 12\n\x7d") =
      { components := [("x", { name := "x", corner_radius := some 12 })],
        grid_unit := 4 } := by
  refine ⟨?_, ?_, ?_⟩
  · intro st raw hskip hne hhash hcomp hgrid hglob hbrace
    show stepCore st (pyStrip raw) = .ok st
    unfold stepCore
    have hb : ((pyStrip raw).isEmpty || (pyStrip raw).head? = some '#') ≠ true := by
      simp [List.isEmpty_iff, hne, hhash]
    rw [if_neg hb]
    simp only [hcomp, hgrid, hglob, Bool.false_eq_true, if_false,
      if_neg hbrace, hskip, if_true]
  · intro st raw hskip hbr
    show stepCore st (pyStrip raw) = .ok ⟨st.spec, st.current, false⟩
    rw [hbr]
    unfold stepCore
    rw [if_neg (show ¬((['\x7d'] : List Char).isEmpty ||
        (['\x7d'] : List Char).head? = some '#') = true by decide)]
    simp only [show matchCOMPONENT ['\x7d'] = none from by decide,
      show matchGLOBALgrid ['\x7d'] = none from by decide,
      show matchGLOBALskip ['\x7d'] = false from by decide,
      Bool.false_eq_true, if_false]
    simp [hskip]
  · decide

/-- Witness for `skip_mode_behavior`: a skipped property line inside a
skip block leaves the state unchanged, and a bare `}` in skip mode only
clears the skip flag. -/
theorem skip_mode_behavior_witness :
    step ⟨{}, none, true⟩ (("corner_radius 999").data) = .ok ⟨{}, none, true⟩ ∧
    step ⟨{}, none, true⟩ (("\x7d").data) = .ok ⟨{}, none, false⟩ := by
  constructor
  · exact skip_mode_behavior.1 ⟨{}, none, true⟩ _ rfl (by decide) (by decide)
      (by decide) (by decide) (by decide) (by decide)
  · exact skip_mode_behavior.2.1 ⟨{}, none, true⟩ _ rfl (by decide)

/-! ## Mutual exclusion of the corner-radius fields (C6) -/

/-- C6 counterexample: the two corner-radius fields are *not* mutually
exclusive across a whole component — a numeric `corner_radius` line
followed by a token `corner_radius @shape....` line populates both. -/
theorem corner_radius_both_cex :
    parse_dsl ("COMPONENT x \x7b\ncorner_radius 5\ncorner_radius @shape.small\n\x7d") =
      { components := [("x",
          { name := "x", corner_radius := some 5,
            corner_radius_token := some ("small") })],
        grid_unit := 4 } := by
  decide

/-- C6 (amended): a *single* property line applied to a fresh component
populates at most one of `corner_radius` and `corner_radius_token` (each
pattern of the table sets exactly one field and the first match wins);
the exclusion does not extend across multiple lines. -/
theorem corner_radius_single_line (nm : String) (l : List Char)
    (c' : Component) (h : tryProps (freshComponent nm) l = .ok c') :
    c'.corner_radius = none ∨ c'.corner_radius_token = none := by
  unfold tryProps at h
  repeat' split at h
  all_goals
    first
      | (simp only [Except.ok.injEq] at h; subst h; simp [freshComponent]; done)
      | (exact absurd h (by simp))

/-- Witness for `corner_radius_single_line` at a concrete line. -/
theorem corner_radius_single_line_witness :
    ({ name := "x", corner_radius := some 7 } : Component).corner_radius = none ∨
    ({ name := "x", corner_radius := some 7 } : Component).corner_radius_token = none :=
  corner_radius_single_line "x" (("corner_radius 7").data) _ (by decide)

/-! ## Tolerance pairing (C8) -/

/-- C8: `height EXACT 56 ±2` parses to `height_exact = 56`,
`height_tolerance = 2`; `height EXACT 56` (no `±`) parses to
`height_exact = 56`, `height_tolerance = 0`; and in general a
`height EXACT` line whose tolerance group is absent leaves the tolerance
field of a fresh component at its default 0. -/
theorem tolerance_pairing :
    parse_dsl ("COMPONENT x \x7b\nheight EXACT 56 ±2\n\x7d") =
      { components := [("x",
          { name := "x", height_exact := some 56, height_tolerance := 2 })],
        grid_unit := 4 } ∧
    parse_dsl ("COMPONENT x \x7b\nheight EXACT 56\n\x7d") =
      { components := [("x", { name := "x", height_exact := some 56 })],
        grid_unit := 4 } ∧
    (∀ (nm : String) (l cap : List Char) (c' : Component),
        lit2WsNumTol (("height").data) (("EXACT").data) l = some (cap, none) →
        tryProps (freshComponent nm) l = .ok c' →
        c'.height_tolerance = 0) := by
  refine ⟨by decide, by decide, ?_⟩
  intro nm l cap c' h1 h2
  unfold tryProps at h2
  rw [h1] at h2
  simp only [] at h2
  repeat' split at h2
  all_goals
    first
      | (simp only [Except.ok.injEq] at h2; subst h2; simp [freshComponent]; done)
      | (exact absurd h2 (by simp))

/-- Witness for `tolerance_pairing` at a concrete `height EXACT` line
with no tolerance group. -/
theorem tolerance_pairing_witness :
    ({ name := "x", height_exact := some 56 } : Component).height_tolerance = 0 :=
  tolerance_pairing.2.2 "x" (("height EXACT 56").data) (("56").data) _
    (by decide) (by decide)

/-! ## Last-write-wins re-declaration (C9) -/

/-- C9 counterexample: the claim's literal blocks use `height_min 10` /
`height_min 20` as property lines, but the DSL spells this property
`height MIN <n>` — no pattern of `COMPONENT_PROPS` matches a
`height_min <n>` line, so it is silently dropped and the resulting
single component has `height_min = None`, not `20`. -/
theorem last_write_wins_cex :
    parse_dsl
        ("COMPONENT x \x7b\nheight_min 10\n\x7d\nCOMPONENT x \x7b\nheight_min 20\n\x7d") =
      { components := [("x", { name := "x" })], grid_unit := 4 } := by
  decide

/-- C9 (amended): parsing the document consisting of
`COMPONENT x { height MIN 10 }` followed by `COMPONENT x { height MIN 20 }`
(the actual DSL syntax for `height_min`, at document scope, with no later
re-declaration) yields exactly one component `x` whose `height_min` is
`20` and whose other fields are all at their defaults: the second
declaration replaces the first outright, with no field merge. -/
theorem last_write_wins_amended :
    parse_dsl
        ("COMPONENT x \x7b\nheight MIN 10\n\x7d\nCOMPONENT x \x7b\nheight MIN 20\n\x7d") =
      { components := [("x", { name := "x", height_min := some 20 })],
        grid_unit := 4 } := by
  decide

/-! ## The image comparator (C3) -/

/-- Whether the pixels at position `i` of the two buffers differ beyond
the tolerance (false past the end of either buffer). -/
def atDiff (px1 px2 : List Pixel) (t : ℕ) (i : ℕ) : Bool :=
  match px1.get? i, px2.get? i with
  | some p, some q => pixelDiffers p q t
  | _, _ => false

theorem countP_countUp_shift (f : ℕ → Bool) : ∀ (n s : ℕ),
    (countUp (s + 1) n).countP f = (countUp s n).countP (fun i => f (i + 1)) := by
  intro n
  induction n with
  | zero => intro s; rfl
  | succ n ih =>
    intro s
    simp only [countUp, List.countP_cons, ih (s + 1)]

theorem countP_countUp_one (f : ℕ → Bool) (n : ℕ) :
    (countUp 1 n).countP f = (countUp 0 n).countP (fun i => f (i + 1)) :=
  countP_countUp_shift f n 0

/-- The diff-counting loop counts exactly the positions `i < length`
at which the two buffers differ. -/
theorem countDiff_eq_countP (t : ℕ) : ∀ (px1 px2 : List Pixel),
    px1.length = px2.length →
    countDiff t px1 px2 = (countUp 0 px1.length).countP (atDiff px1 px2 t) := by
  intro px1
  induction px1 with
  | nil => intro px2 h; rfl
  | cons p ps ih =>
    intro px2 h
    cases px2 with
    | nil => simp at h
    | cons q qs =>
      have hlen : ps.length = qs.length := by simpa using h
      have hsh : (fun i => atDiff (p :: ps) (q :: qs) t (i + 1)) =
          atDiff ps qs t := by
        funext i
        rfl
      show (if pixelDiffers p q t then 1 else 0) + countDiff t ps qs = _
      simp only [List.length_cons, countUp, Nat.zero_add, List.countP_cons,
        countP_countUp_one, hsh]
      rw [ih qs hlen]
      have hatz : atDiff (p :: ps) (q :: qs) t 0 = pixelDiffers p q t := rfl
      rw [hatz]
      omega

/-- C3: behaviour of `compare_images` on well-formed rasters
(`len(pixels) = width*height`).  If the dimensions differ the result is
`(False, 0.0, w1*h1)`; otherwise the differing-pixel count is the number
of positions whose pixels differ, the similarity is
`100*(total - diff)/total` (0 when `total = 0`), the match flag is true
iff the count is 0, and a pixel differs iff **some** channel's absolute
difference strictly exceeds the tolerance (a difference of exactly `t`
does not count). -/
theorem compare_images_spec (w1 h1 w2 h2 t : ℕ) (px1 px2 : List Pixel)
    (ha : px1.length = w1 * h1) (hb : px2.length = w2 * h2) :
    (w1 ≠ w2 ∨ h1 ≠ h2 →
      compare_images (w1, h1, px1) (w2, h2, px2) t = (false, 0, w1 * h1)) ∧
    (w1 = w2 → h1 = h2 →
      (compare_images (w1, h1, px1) (w2, h2, px2) t).2.2 =
          (countUp 0 (w1 * h1)).countP (atDiff px1 px2 t) ∧
      (compare_images (w1, h1, px1) (w2, h2, px2) t).2.1 =
          (if 0 < w1 * h1 then
            100 * ((w1 * h1 : ℚ) -
              ((countUp 0 (w1 * h1)).countP (atDiff px1 px2 t) : ℚ)) /
              (w1 * h1 : ℚ)
           else 0) ∧
      ((compare_images (w1, h1, px1) (w2, h2, px2) t).1 = true ↔
          (countUp 0 (w1 * h1)).countP (atDiff px1 px2 t) = 0)) ∧
    (∀ p q : Pixel, pixelDiffers p q t = true ↔
      (t < chanDiff p.1 q.1 ∨ t < chanDiff p.2.1 q.2.1 ∨
       t < chanDiff p.2.2.1 q.2.2.1 ∨ t < chanDiff p.2.2.2 q.2.2.2)) := by
  refine ⟨?_, ?_, ?_⟩
  · intro hdim
    simp only [compare_images]
    rw [if_pos hdim]
  · intro hw hh
    subst hw
    subst hh
    have hcd : countDiff t px1 px2 =
        (countUp 0 (w1 * h1)).countP (atDiff px1 px2 t) := by
      rw [countDiff_eq_countP t px1 px2 (by rw [ha, hb]), ha]
    have hc : compare_images (w1, h1, px1) (w1, h1, px2) t =
        (decide (countDiff t px1 px2 = 0),
          (if 0 < w1 * h1 then
            100 * ((w1 * h1 : ℚ) - (countDiff t px1 px2 : ℚ)) / (w1 * h1 : ℚ)
           else 0),
          countDiff t px1 px2) := by
      simp only [compare_images]
      rw [if_neg (by simp)]
      simp [Nat.cast_mul]
    rw [hc]
    refine ⟨by simp [hcd], by simp [hcd], by simp [hcd]⟩
  · intro p q
    simp [pixelDiffers, Bool.or_eq_true, decide_eq_true_iff, or_assoc]

/-- Witness for `compare_images_spec`: a 1×1 against a 2×2 raster is a
dimension mismatch with diff count 1; a 1×1 pair whose only channel
difference is exactly the tolerance matches. -/
theorem compare_images_spec_witness :
    compare_images ((1 : ℕ), (1 : ℕ), [((10, 10, 10, 255) : Pixel)])
        (2, 2, [(0, 0, 0, 0), (0, 0, 0, 0), (0, 0, 0, 0), (0, 0, 0, 0)]) 2 =
      (false, 0, 1) ∧
    ((compare_images ((1 : ℕ), (1 : ℕ), [((10, 10, 12, 255) : Pixel)])
        (1, 1, [(10, 10, 10, 255)]) 2).1 = true ↔
      (countUp 0 (1 * 1)).countP
          (atDiff [((10, 10, 12, 255) : Pixel)] [(10, 10, 10, 255)] 2) = 0) :=
  ⟨(compare_images_spec 1 1 2 2 2 _ _ (by decide) (by decide)).1 (by decide),
   ((compare_images_spec 1 1 1 1 2 _ _ (by decide) (by decide)).2.1 rfl rfl).2.2⟩

/-! ## The compliance-check generator (C4) -/

theorem checksFor_mem_of (nm : String) (c : Component)
    {m : List (String × String × ℤ)} {attr cn : String} {e : ℤ} {v : ℚ}
    (hm : (attr, cn, e) ∈ m) (hv : getAttrQ c attr = some v)
    (hcond : |v - (e : ℚ)| < 1 / 10) :
    (⟨nm, attr, cn, e⟩ : Check) ∈ checksFor nm c m := by
  induction m with
  | nil => cases hm
  | cons hd rest ih =>
    obtain ⟨a, cn0, e0⟩ := hd
    rcases List.mem_cons.mp hm with heq | hmem
    · injection heq with h1 h2
      injection h2 with h2 h3
      subst h1
      subst h2
      subst h3
      unfold checksFor
      simp only [hv]
      rw [if_pos hcond]
      exact List.mem_cons_self _ _
    · unfold checksFor
      cases hg : getAttrQ c a with
      | none => exact ih hmem
      | some v0 =>
        simp only []
        by_cases hc : |v0 - (e0 : ℚ)| < 1 / 10
        · rw [if_pos hc]
          exact List.mem_cons_of_mem _ (ih hmem)
        · rw [if_neg hc]
          exact ih hmem

theorem of_checksFor_mem {nm : String} {c : Component} {ck : Check} :
    ∀ {m : List (String × String × ℤ)}, ck ∈ checksFor nm c m →
      ∃ attr cn e v, (attr, cn, e) ∈ m ∧ getAttrQ c attr = some v ∧
        |v - (e : ℚ)| < 1 / 10 ∧ ck = ⟨nm, attr, cn, e⟩ := by
  intro m
  induction m with
  | nil => intro h; simp [checksFor] at h
  | cons hd rest ih =>
    obtain ⟨a, cn0, e0⟩ := hd
    intro h
    unfold checksFor at h
    cases hg : getAttrQ c a with
    | none =>
      simp only [hg] at h
      obtain ⟨attr, cn, e, v, hmem, hv, hc, hck⟩ := ih h
      exact ⟨attr, cn, e, v, List.mem_cons_of_mem _ hmem, hv, hc, hck⟩
    | some v0 =>
      simp only [hg] at h
      by_cases hc : |v0 - (e0 : ℚ)| < 1 / 10
      · rw [if_pos hc] at h
        rcases List.mem_cons.mp h with hckeq | htail
        · exact ⟨a, cn0, e0, v0, List.mem_cons_self _ _, hg, hc, hckeq⟩
        · obtain ⟨attr, cn, e, v, hmem, hv, hc2, hck⟩ := ih htail
          exact ⟨attr, cn, e, v, List.mem_cons_of_mem _ hmem, hv, hc2, hck⟩
      · rw [if_neg hc] at h
        obtain ⟨attr, cn, e, v, hmem, hv, hc2, hck⟩ := ih h
        exact ⟨attr, cn, e, v, List.mem_cons_of_mem _ hmem, hv, hc2, hck⟩

theorem md3_mem_of {comps : List (String × Component)} {nm : String}
    {c : Component} {m : List (String × String × ℤ)} {ck : Check}
    (hmem : (nm, c) ∈ comps) (hm : mapLookup SPEC_CONST_MAP nm = some m)
    (hck : ck ∈ checksFor nm c m) : ck ∈ md3_checks_list comps := by
  induction comps with
  | nil => cases hmem
  | cons hd rest ih =>
    obtain ⟨n0, c0⟩ := hd
    rcases List.mem_cons.mp hmem with heq | h2
    · injection heq with h1 h2
      subst h1
      subst h2
      unfold md3_checks_list
      simp only [hm]
      exact List.mem_append_left _ hck
    · unfold md3_checks_list
      exact List.mem_append_right _ (ih h2)

theorem of_md3_mem {ck : Check} : ∀ {comps : List (String × Component)},
    ck ∈ md3_checks_list comps →
    ∃ nm c m, (nm, c) ∈ comps ∧ mapLookup SPEC_CONST_MAP nm = some m ∧
      ck ∈ checksFor nm c m := by
  intro comps
  induction comps with
  | nil => intro h; cases h
  | cons hd rest ih =>
    obtain ⟨n0, c0⟩ := hd
    intro h
    unfold md3_checks_list at h
    rcases List.mem_append.mp h with hl | hr
    · cases hg : mapLookup SPEC_CONST_MAP n0 with
      | none => rw [hg] at hl; cases hl
      | some mp =>
        rw [hg] at hl
        exact ⟨n0, c0, mp, List.mem_cons_self _ _, hg, hl⟩
    · obtain ⟨nm, c, m, hmem, hm, hck⟩ := ih hr
      exact ⟨nm, c, m, List.mem_cons_of_mem _ hmem, hm, hck⟩

theorem keys_nodup_unique : ∀ {l : List (String × Component)},
    (l.map Prod.fst).Nodup → ∀ {nm : String} {c c' : Component},
    (nm, c) ∈ l → (nm, c') ∈ l → c = c' := by
  intro l
  induction l with
  | nil => intro _ _ _ _ h; cases h
  | cons hd rest ih =>
    intro hnd nm c c' h1 h2
    obtain ⟨n0, c0⟩ := hd
    simp only [List.map_cons, List.nodup_cons] at hnd
    rcases List.mem_cons.mp h1 with e1 | m1 <;>
      rcases List.mem_cons.mp h2 with e2 | m2
    · injection e1 with a1 b1
      injection e2 with a2 b2
      rw [b1, b2]
    · injection e1 with a1 b1
      exfalso
      apply hnd.1
      rw [← a1]
      exact List.mem_map_of_mem Prod.fst m2
    · injection e2 with a2 b2
      exfalso
      apply hnd.1
      rw [← a2]
      exact List.mem_map_of_mem Prod.fst m1
    · exact ih hnd.2 m1 m2

/-- C4: for a component present in both the document and
`SPEC_CONST_MAP` (component names being unique, as produced by the
parser's dict) and a property both set in the DSL and present in that
component's sub-table, `generate_md3_checks` emits the check for that
(component, property) pair **iff** `abs(dsl_value - expected) < 0.1`;
values failing the test are silently omitted (the generator is a total
function — `md3_checks` always returns a list, never an error). -/
theorem md3_checks_emission (spec : Spec) (nm : String) (c : Component)
    (attr constName : String) (expected : ℤ) (v : ℚ)
    (m : List (String × String × ℤ))
    (hnd : (spec.components.map Prod.fst).Nodup)
    (hmem : (nm, c) ∈ spec.components)
    (hmap : mapLookup SPEC_CONST_MAP nm = some m)
    (hattr : (attr, constName, expected) ∈ m)
    (hval : getAttrQ c attr = some v) :
    (⟨nm, attr, constName, expected⟩ : Check) ∈ md3_checks spec ↔
      |v - (expected : ℚ)| < 1 / 10 := by
  constructor
  · intro h
    obtain ⟨nm', c', m', hmem', hm', hck'⟩ := of_md3_mem h
    obtain ⟨attr', cn', e', v', hattrm, hv', hc', hckeq⟩ := of_checksFor_mem hck'
    injection hckeq with e1 e2 e3 e4
    subst e1
    subst e2
    have hcc : c' = c := keys_nodup_unique hnd hmem' hmem
    subst hcc
    rw [hval] at hv'
    injection hv' with hv'
    subst hv'
    subst e4
    exact hc'
  · intro hcond
    exact md3_mem_of hmem hmap (checksFor_mem_of nm c hattr hval hcond)

/-- Witness for `md3_checks_emission`: invariant-table entry
`button.height_min ↦ (IUI_BUTTON_HEIGHT, 40)` against DSL value `40.05`
emits the check (`|40.05 - 40| < 0.1`). -/
theorem md3_checks_emission_witness :
    (⟨"button", "height_min", "IUI_BUTTON_HEIGHT", 40⟩ : Check) ∈
      md3_checks
        { components := [("button",
            { name := "button", height_min := some (40.05 : ℚ) })],
          grid_unit := 4 } :=
  (md3_checks_emission
      { components := [("button",
          { name := "button", height_min := some (40.05 : ℚ) })],
        grid_unit := 4 }
      "button" { name := "button", height_min := some (40.05 : ℚ) }
      "height_min" "IUI_BUTTON_HEIGHT" 40 (40.05 : ℚ) _
      (by simp) (List.mem_cons_self _ _) rfl (List.mem_cons_self _ _)
      rfl).mpr (by rw [abs_sub_lt_iff]; constructor <;> norm_num)

/-! ## PNG reader lemmas -/

theorem be32_length (n : ℕ) : (be32 n).length = 4 := rfl

theorem be32val_be32 {n : ℕ} (h : n < 2 ^ 32) : be32val (be32 n) = n := by
  show ((n / 2 ^ 24 % 256 * 256 + n / 2 ^ 16 % 256) * 256 + n / 2 ^ 8 % 256) *
      256 + n % 256 = n
  omega

theorem take_append_len {α : Type} : ∀ (l1 l2 : List α),
    (l1 ++ l2).take l1.length = l1
  | [], _ => rfl
  | a :: l1, l2 => by
    simp [List.length_cons, List.take_succ_cons, take_append_len l1 l2]

theorem drop_append_len {α : Type} : ∀ (l1 l2 : List α),
    (l1 ++ l2).drop l1.length = l2
  | [], _ => rfl
  | a :: l1, l2 => by
    simp [List.length_cons, List.drop_succ_cons, drop_append_len l1 l2]

theorem take_append_of_len {α : Type} {n : ℕ} (l1 l2 : List α)
    (h : l1.length = n) : (l1 ++ l2).take n = l1 := by
  subst h
  exact take_append_len l1 l2

theorem drop_append_of_len {α : Type} {n : ℕ} (l1 l2 : List α)
    (h : l1.length = n) : (l1 ++ l2).drop n = l2 := by
  subst h
  exact drop_append_len l1 l2

theorem get?_some_lt {α : Type} {l : List α} {n : ℕ} {x : α}
    (h : l.get? n = some x) : n < l.length := by
  by_contra hc
  push_neg at hc
  rw [List.get?_eq_none.mpr hc] at h
  cases h

theorem countUp_length : ∀ (n s : ℕ), (countUp s n).length = n
  | 0, _ => rfl
  | n + 1, s => by simp [countUp, countUp_length n (s + 1)]

theorem countUp_get? : ∀ (n s i : ℕ), i < n →
    (countUp s n).get? i = some (s + i) := by
  intro n
  induction n with
  | zero => intro s i h; omega
  | succ n ih =>
    intro s i h
    cases i with
    | zero => simp [countUp]
    | succ i =>
      have := ih (s + 1) i (by omega)
      simp only [countUp, List.get?_cons_succ, this]
      congr 1
      omega

theorem exMap_length {α : Type} {f : ℕ → Except PyErr α} :
    ∀ {l : List ℕ} {l' : List α}, exMap f l = .ok l' → l'.length = l.length := by
  intro l
  induction l with
  | nil =>
    intro l' h
    simp only [exMap, Except.ok.injEq] at h
    subst h
    rfl
  | cons x xs ih =>
    intro l' h
    unfold exMap at h
    cases hfx : f x with
    | error e =>
      simp only [hfx] at h
      exact absurd h (by simp)
    | ok y =>
      simp only [hfx] at h
      cases hm : exMap f xs with
      | error e =>
        simp only [hm] at h
        exact absurd h (by simp)
      | ok ys =>
        simp only [hm, Except.ok.injEq] at h
        subst h
        simp [ih hm]

theorem exMap_mem {α : Type} {f : ℕ → Except PyErr α} :
    ∀ {l : List ℕ} {l' : List α}, exMap f l = .ok l' →
      ∀ b ∈ l', ∃ a ∈ l, f a = .ok b := by
  intro l
  induction l with
  | nil =>
    intro l' h b hb
    simp only [exMap, Except.ok.injEq] at h
    subst h
    cases hb
  | cons x xs ih =>
    intro l' h b hb
    unfold exMap at h
    cases hfx : f x with
    | error e =>
      simp only [hfx] at h
      exact absurd h (by simp)
    | ok y =>
      simp only [hfx] at h
      cases hm : exMap f xs with
      | error e =>
        simp only [hm] at h
        exact absurd h (by simp)
      | ok ys =>
        simp only [hm, Except.ok.injEq] at h
        subst h
        rcases List.mem_cons.mp hb with hb | hb
        · exact ⟨x, List.mem_cons_self _ _, hb ▸ hfx⟩
        · obtain ⟨a, ha, hfa⟩ := ih hm b hb
          exact ⟨a, List.mem_cons_of_mem _ ha, hfa⟩

theorem exMap_get {α : Type} {f : ℕ → Except PyErr α} :
    ∀ {l : List ℕ} {l' : List α}, exMap f l = .ok l' →
      ∀ (i : ℕ) (x : ℕ), l.get? i = some x →
        ∃ y, l'.get? i = some y ∧ f x = .ok y := by
  intro l
  induction l with
  | nil => intro l' _ i x hx; cases hx
  | cons a as ih =>
    intro l' h i x hx
    unfold exMap at h
    cases hfx : f a with
    | error e =>
      simp only [hfx] at h
      exact absurd h (by simp)
    | ok y =>
      simp only [hfx] at h
      cases hm : exMap f as with
      | error e =>
        simp only [hm] at h
        exact absurd h (by simp)
      | ok ys =>
        simp only [hm, Except.ok.injEq] at h
        subst h
        cases i with
        | zero =>
          simp only [List.get?_cons_zero, Option.some.injEq] at hx
          subst hx
          exact ⟨y, rfl, hfx⟩
        | succ i =>
          simp only [List.get?_cons_succ] at hx
          obtain ⟨y', hy', hfy'⟩ := ih hm i x hx
          exact ⟨y', by simpa using hy', hfy'⟩

theorem concatAll_length_const {α : Type} (w : ℕ) :
    ∀ (rows : List (List α)), (∀ r ∈ rows, r.length = w) →
      (concatAll rows).length = rows.length * w := by
  intro rows
  induction rows with
  | nil => intro _; simp [concatAll]
  | cons r rest ih =>
    intro hr
    have h1 : r.length = w := hr r (List.mem_cons_self _ _)
    have h2 := ih (fun r' hr' => hr r' (List.mem_cons_of_mem _ hr'))
    simp only [concatAll, List.length_append, List.length_cons, h1, h2]
    ring

theorem concatAll_get? {α : Type} (w : ℕ) :
    ∀ (rows : List (List α)) (y x : ℕ), (∀ r ∈ rows, r.length = w) →
      x < w → ∀ row, rows.get? y = some row →
      (concatAll rows).get? (y * w + x) = row.get? x := by
  intro rows
  induction rows with
  | nil => intro y x _ _ row hrow; cases hrow
  | cons r rest ih =>
    intro y x hlen hx row hrow
    cases y with
    | zero =>
      simp only [List.get?_cons_zero, Option.some.injEq] at hrow
      subst hrow
      show (r ++ concatAll rest).get? (0 * w + x) = r.get? x
      rw [Nat.zero_mul, Nat.zero_add]
      exact List.get?_append (by rw [hlen r (List.mem_cons_self _ _)]; exact hx)
    | succ y =>
      simp only [List.get?_cons_succ] at hrow
      show (r ++ concatAll rest).get? ((y + 1) * w + x) = row.get? x
      have hr : r.length = w := hlen r (List.mem_cons_self _ _)
      have hexp : (y + 1) * w = y * w + w := by ring
      rw [List.get?_append_right (by rw [hr, hexp]; omega)]
      have harith : (y + 1) * w + x - r.length = y * w + x := by
        rw [hr, hexp]
        omega
      rw [harith]
      exact ih y x (fun r' hr' => hlen r' (List.mem_cons_of_mem _ hr')) hx row hrow

theorem mem_concatAll {α : Type} {x : α} :
    ∀ {rows : List (List α)}, x ∈ concatAll rows → ∃ r ∈ rows, x ∈ r := by
  intro rows
  induction rows with
  | nil => intro h; cases h
  | cons r rest ih =>
    intro h
    rcases List.mem_append.mp h with h | h
    · exact ⟨r, List.mem_cons_self _ _, h⟩
    · obtain ⟨r', hr', hx⟩ := ih h
      exact ⟨r', List.mem_cons_of_mem _ hr', hx⟩

/-- Every byte of the inflated output is copied from the input stream
(stored blocks copy input slices verbatim). -/
theorem inflateBlocks_mem : ∀ (fuel : ℕ) (input acc out trail : List ℕ),
    inflateBlocks fuel input acc = .ok (out, trail) →
    ∀ b ∈ out, b ∈ acc ∨ b ∈ input := by
  intro fuel
  induction fuel with
  | zero =>
    intro input acc out trail h
    exact absurd h (by simp [inflateBlocks])
  | succ n ih =>
    intro input acc out trail h b hb
    unfold inflateBlocks at h
    cases input with
    | nil => exact absurd h (by simp)
    | cons b0 r =>
      simp only [] at h
      by_cases hbt : b0 / 2 % 4 = 0
      · rw [if_pos hbt] at h
        split at h
        · rename_i l0 l1 n0 n1 r2
          have hsub : ∀ {x : ℕ}, x ∈ r2 → x ∈ b0 :: l0 :: l1 :: n0 :: n1 :: r2 :=
            fun hx => List.mem_cons_of_mem _ (List.mem_cons_of_mem _
              (List.mem_cons_of_mem _ (List.mem_cons_of_mem _
                (List.mem_cons_of_mem _ hx))))
          split at h
          · exact absurd h (by simp)
          · split at h
            · exact absurd h (by simp)
            · split at h
              · simp only [Except.ok.injEq, Prod.mk.injEq] at h
                obtain ⟨hout, _⟩ := h
                subst hout
                rcases List.mem_append.mp hb with hbm | hbm
                · exact Or.inl hbm
                · exact Or.inr (hsub (List.take_subset _ _ hbm))
              · rcases ih _ _ _ _ h b hb with h1 | h1
                · rcases List.mem_append.mp h1 with h2 | h2
                  · exact Or.inl h2
                  · exact Or.inr (hsub (List.take_subset _ _ h2))
                · exact Or.inr (hsub (List.drop_subset _ _ h1))
        · exact absurd h (by simp)
      · rw [if_neg hbt] at h
        exact absurd h (by simp)

/-- Every byte of the accumulated compressed stream comes from the
initial accumulator or the scanned byte stream. -/
theorem chunkScan_mem : ∀ (fuel : ℕ) (s : List ℕ) (w h : ℕ) (comp : List ℕ)
    (w' h' : ℕ) (comp' : List ℕ),
    chunkScan fuel s w h comp = .ok (w', h', comp') →
    ∀ b ∈ comp', b ∈ comp ∨ b ∈ s := by
  intro fuel
  induction fuel with
  | zero =>
    intro s w h comp w' h' comp' hs
    exact absurd hs (by simp [chunkScan])
  | succ n ih =>
    intro s w h comp w' h' comp' hs b hb
    have hcd : ∀ {x : ℕ} {k : ℕ}, x ∈ ((s.drop 4).drop 4).take k → x ∈ s :=
      fun hx => List.drop_subset _ _ (List.drop_subset _ _
        (List.take_subset _ _ hx))
    have hrest : ∀ {x : ℕ} {k : ℕ},
        x ∈ ((((s.drop 4).drop 4).drop k).drop 4) → x ∈ s :=
      fun hx => List.drop_subset _ _ (List.drop_subset _ _
        (List.drop_subset _ _ (List.drop_subset _ _ hx)))
    unfold chunkScan at hs
    split at hs
    · simp only [] at hs
      split at hs
      · split at hs
        · split at hs
          · split at hs
            · split at hs
              · exact absurd hs (by simp)
              · rcases ih _ _ _ _ _ _ _ hs b hb with h1 | h1
                · exact Or.inl h1
                · exact Or.inr (hrest h1)
            · exact absurd hs (by simp)
          · exact absurd hs (by simp)
        · exact absurd hs (by simp)
      · split at hs
        · rcases ih _ _ _ _ _ _ _ hs b hb with h1 | h1
          · rcases List.mem_append.mp h1 with h2 | h2
            · exact Or.inl h2
            · exact Or.inr (hcd h2)
          · exact Or.inr (hrest h1)
        · split at hs
          · simp only [Except.ok.injEq, Prod.mk.injEq] at hs
            obtain ⟨_, _, hcomp⟩ := hs
            subst hcomp
            exact Or.inl hb
          · rcases ih _ _ _ _ _ _ _ hs b hb with h1 | h1
            · exact Or.inl h1
            · exact Or.inr (hrest h1)
    · exact absurd hs (by simp)

theorem zlibDecompress_mem {l out : List ℕ} (h : zlibDecompress l = .ok out) :
    ∀ b ∈ out, b ∈ l := by
  unfold zlibDecompress at h
  match l with
  | [] => exact absurd h (by simp)
  | [cmf] => exact absurd h (by simp)
  | cmf :: flg :: rest =>
    intro b hb
    simp only [] at h
    split at h
    · exact absurd h (by simp)
    · split at h
      · exact absurd h (by simp)
      · split at h
        · exact absurd h (by simp)
        · split at h
          · exact absurd h (by simp)
          · cases hib : inflateBlocks (rest.length + 1) rest [] with
            | error e =>
              rw [hib] at h
              exact absurd h (by simp)
            | ok p =>
              obtain ⟨o, trail⟩ := p
              rw [hib] at h
              simp only [] at h
              split at h
              · split at h
                · simp only [Except.ok.injEq] at h
                  subst h
                  rcases inflateBlocks_mem _ _ _ _ _ hib b hb with h1 | h1
                  · cases h1
                  · exact List.mem_cons_of_mem _ (List.mem_cons_of_mem _ h1)
                · exact absurd h (by simp)
              · exact absurd h (by simp)

/-! ## PNG reader claims (C5, C7, C10) -/

/-- C10: the decoder is not total outside the documented failure
taxonomy — on input consisting of the valid 8-byte PNG signature alone
(truncated before any chunk), `read_png` raises `struct.error` while
unpacking the missing 4-byte chunk length, an exception that is neither
a `FormatError`/`ValueError` nor a successful Raster. -/
theorem read_png_truncated_struct_error :
    read_png pngSig = .error PyErr.structError := by
  decide

/-- A PNG byte stream with *no* IHDR chunk: signature, one IDAT chunk
whose payload is the zlib stream of the empty byte string (one stored
DEFLATE block, `78 01 01 00 00 ff ff` + Adler-32 `00 00 00 01`), and an
IEND chunk. -/
def pngHeaderless : List ℕ :=
  pngSig ++ be32 11 ++ idatType ++
    [120, 1, 1, 0, 0, 255, 255, 0, 0, 0, 1] ++ [0, 0, 0, 0] ++
    be32 0 ++ iendType ++ [0, 0, 0, 0]

/-- C5 counterexample: pixel data (an IDAT chunk) is encountered with
the required header information never supplied, yet `read_png` raises no
`FormatError` — it succeeds and returns the (0, 0, []) raster.  The
"missing header" case of the claimed failure taxonomy is not detected
by the code. -/
theorem read_png_missing_header_cex :
    read_png pngHeaderless = .ok (0, 0, []) := by
  decide

/-- Encode a sequence of chunks — (type, payload, CRC) triples — in
front of a continuation stream: each chunk contributes its big-endian
payload length, the 4-byte type, the payload and the CRC. -/
def encodeChunks : List (List ℕ × List ℕ × List ℕ) → List ℕ → List ℕ
  | [], s => s
  | c :: cs, s =>
    be32 c.2.1.length ++ (c.1 ++ (c.2.1 ++ (c.2.2 ++ encodeChunks cs s)))

theorem encodeChunks_length_ge :
    ∀ (chunks : List (List ℕ × List ℕ × List ℕ)) (s : List ℕ),
    chunks.length ≤ (encodeChunks chunks s).length := by
  intro chunks
  induction chunks with
  | nil => intro s; simp [encodeChunks]
  | cons c cs ih =>
    intro s
    have := ih s
    have hb := be32_length c.2.1.length
    simp only [encodeChunks, List.length_append, List.length_cons]
    omega

/-- The chunk loop on an IHDR chunk whose bit depth is not 8 or whose
colour type is not 6 raises the format `ValueError`, from any scan
state. -/
theorem chunkScan_ihdr_bad (fuel : ℕ) (data crc rest : List ℕ) (bd ct : ℕ)
    (h8 : data.get? 8 = some bd) (h9 : data.get? 9 = some ct)
    (hbad : bd ≠ 8 ∨ ct ≠ 6) (hlt : data.length < 2 ^ 32)
    (w h : ℕ) (comp : List ℕ) :
    chunkScan (fuel + 1)
        (be32 data.length ++ (ihdrType ++ (data ++ (crc ++ rest)))) w h comp =
      .error (.valueError ("Only 8-bit RGBA PNGs supported")) := by
  have h10 : 10 ≤ data.length := by
    have := get?_some_lt h9
    omega
  unfold chunkScan
  simp only []
  rw [take_append_of_len _ _ (be32_length _)]
  rw [if_pos (be32_length _)]
  rw [drop_append_of_len _ _ (be32_length _)]
  rw [be32val_be32 hlt]
  rw [take_append_of_len ihdrType (data ++ (crc ++ rest))
    (show ihdrType.length = 4 from rfl)]
  rw [if_pos rfl]
  rw [drop_append_of_len ihdrType (data ++ (crc ++ rest))
    (show ihdrType.length = 4 from rfl)]
  rw [take_append_len data (crc ++ rest)]
  rw [if_pos (by rw [List.length_take]; omega)]
  rw [if_pos (by rw [List.length_take, List.length_drop]; omega)]
  rw [h8, h9]
  simp only []
  rw [if_pos hbad]

/-- Stepping the chunk loop over one well-formed chunk that is not an
IEND.  The scan continues behind the chunk with some width/height state,
accumulating the payload when the chunk is an IDAT; a prior IHDR chunk
must carry the supported bit depth 8 / colour type 6 (a malformed one
would error instead of stepping). -/
theorem chunkScan_step_chunk (fuel : ℕ) (ty d crc s2 : List ℕ)
    (w h : ℕ) (comp : List ℕ) (hty4 : ty.length = 4)
    (hiend : ty ≠ iendType) (hlt : d.length < 2 ^ 32) (hcrc : crc.length = 4)
    (hvalid : ty = ihdrType →
      10 ≤ d.length ∧ d.get? 8 = some 8 ∧ d.get? 9 = some 6) :
    ∃ w2 h2 : ℕ,
      chunkScan (fuel + 1) (be32 d.length ++ (ty ++ (d ++ (crc ++ s2)))) w h comp =
        chunkScan fuel s2 w2 h2 (if ty = idatType then comp ++ d else comp) := by
  by_cases hihdr : ty = ihdrType
  · subst hihdr
    obtain ⟨h10, h8, h9⟩ := hvalid rfl
    refine ⟨be32val (d.take 4), be32val ((d.drop 4).take 4), ?_⟩
    conv_lhs => unfold chunkScan
    simp only []
    rw [take_append_of_len _ _ (be32_length _)]
    rw [if_pos (be32_length _)]
    rw [drop_append_of_len _ _ (be32_length _)]
    rw [be32val_be32 hlt]
    rw [take_append_of_len ihdrType (d ++ (crc ++ s2))
      (show ihdrType.length = 4 from rfl)]
    rw [if_pos rfl]
    rw [drop_append_of_len ihdrType (d ++ (crc ++ s2))
      (show ihdrType.length = 4 from rfl)]
    rw [take_append_len d (crc ++ s2)]
    rw [drop_append_len d (crc ++ s2)]
    rw [drop_append_of_len crc s2 hcrc]
    rw [if_pos (by rw [List.length_take]; omega)]
    rw [if_pos (by rw [List.length_take, List.length_drop]; omega)]
    rw [h8, h9]
    simp only []
    rw [if_neg (by simp)]
    rw [if_neg (show ihdrType ≠ idatType from by decide)]
  · refine ⟨w, h, ?_⟩
    conv_lhs => unfold chunkScan
    simp only []
    rw [take_append_of_len _ _ (be32_length _)]
    rw [if_pos (be32_length _)]
    rw [drop_append_of_len _ _ (be32_length _)]
    rw [be32val_be32 hlt]
    rw [take_append_of_len ty (d ++ (crc ++ s2)) hty4]
    rw [drop_append_of_len ty (d ++ (crc ++ s2)) hty4]
    rw [if_neg hihdr]
    rw [take_append_len d (crc ++ s2)]
    rw [drop_append_len d (crc ++ s2)]
    rw [drop_append_of_len crc s2 hcrc]
    by_cases hid : ty = idatType
    · rw [if_pos hid, if_pos hid]
    · rw [if_neg hid, if_neg hid, if_neg hiend]

/-- If the scan of the continuation stream yields the same outcome from
every scan state, prefixing any number of well-formed non-IEND chunks
preserves it (one fuel unit per chunk). -/
theorem chunkScan_skip_chunks :
    ∀ (chunks : List (List ℕ × List ℕ × List ℕ)) (fuel : ℕ) (s : List ℕ)
      (E : Except PyErr (ℕ × ℕ × List ℕ)),
    (∀ c ∈ chunks, c.1.length = 4 ∧ c.1 ≠ iendType ∧
        c.2.1.length < 2 ^ 32 ∧ c.2.2.length = 4 ∧
        (c.1 = ihdrType →
          10 ≤ c.2.1.length ∧ c.2.1.get? 8 = some 8 ∧ c.2.1.get? 9 = some 6)) →
    (∀ (w2 h2 : ℕ) (comp2 : List ℕ), chunkScan fuel s w2 h2 comp2 = E) →
    ∀ (w h : ℕ) (comp : List ℕ),
      chunkScan (fuel + chunks.length) (encodeChunks chunks s) w h comp = E := by
  intro chunks
  induction chunks with
  | nil =>
    intro fuel s E _ hcont w h comp
    simpa [encodeChunks] using hcont w h comp
  | cons c cs ih =>
    intro fuel s E hwf hcont w h comp
    obtain ⟨ty, d, crc⟩ := c
    obtain ⟨h4, he, hlt, hcrc, hvalid⟩ := hwf _ (List.mem_cons_self _ _)
    show chunkScan (fuel + (cs.length + 1))
        (be32 d.length ++ (ty ++ (d ++ (crc ++ encodeChunks cs s)))) w h comp = E
    obtain ⟨w2, h2, hstep⟩ := chunkScan_step_chunk (fuel + cs.length) ty d crc
      (encodeChunks cs s) w h comp h4 he hlt hcrc hvalid
    have harith : fuel + (cs.length + 1) = fuel + cs.length + 1 := by omega
    rw [harith, hstep]
    exact ih fuel s E (fun c2 hc2 => hwf c2 (List.mem_cons_of_mem _ hc2)) hcont w2 h2 _

/-- An IHDR chunk with unsupported bit depth or colour type raises the
format `ValueError` wherever it occurs in the chunk sequence (behind any
well-formed non-IEND chunks), from any scan state, with any sufficient
fuel. -/
theorem chunkScan_chunks_ihdr_bad
    (chunks : List (List ℕ × List ℕ × List ℕ)) (data crc rest : List ℕ)
    (bd ct : ℕ)
    (hwf : ∀ c ∈ chunks, c.1.length = 4 ∧ c.1 ≠ iendType ∧
        c.2.1.length < 2 ^ 32 ∧ c.2.2.length = 4 ∧
        (c.1 = ihdrType →
          10 ≤ c.2.1.length ∧ c.2.1.get? 8 = some 8 ∧ c.2.1.get? 9 = some 6))
    (h8 : data.get? 8 = some bd) (h9 : data.get? 9 = some ct)
    (hbad : bd ≠ 8 ∨ ct ≠ 6) (hlt : data.length < 2 ^ 32) :
    ∀ fuel : ℕ, chunks.length + 1 ≤ fuel → ∀ (w h : ℕ) (comp : List ℕ),
    chunkScan fuel (encodeChunks chunks
        (be32 data.length ++ (ihdrType ++ (data ++ (crc ++ rest))))) w h comp =
      .error (.valueError ("Only 8-bit RGBA PNGs supported")) := by
  intro fuel hfuel w h comp
  have hf : fuel = (fuel - chunks.length) + chunks.length := by omega
  rw [hf]
  refine chunkScan_skip_chunks chunks (fuel - chunks.length) _ _ hwf ?_ w h comp
  intro w2 h2 comp2
  have hf2 : fuel - chunks.length = (fuel - chunks.length - 1) + 1 := by omega
  rw [hf2]
  exact chunkScan_ihdr_bad _ data crc rest bd ct h8 h9 hbad hlt w2 h2 comp2

/-- The chunk loop's only `ValueError` is the IHDR format check. -/
theorem chunkScan_valueError : ∀ (fuel : ℕ) (s : List ℕ) (w h : ℕ)
    (comp : List ℕ) (msg : String),
    chunkScan fuel s w h comp = .error (.valueError msg) →
    msg = "Only 8-bit RGBA PNGs supported" := by
  intro fuel
  induction fuel with
  | zero =>
    intro s w h comp msg hs
    exact absurd hs (by simp [chunkScan])
  | succ n ih =>
    intro s w h comp msg hs
    unfold chunkScan at hs
    split at hs
    · simp only [] at hs
      split at hs
      · split at hs
        · split at hs
          · split at hs
            · split at hs
              · simp only [Except.error.injEq, PyErr.valueError.injEq] at hs
                exact hs.symm
              · exact ih _ _ _ _ _ hs
            · exact absurd hs (by simp)
          · exact absurd hs (by simp)
        · exact absurd hs (by simp)
      · split at hs
        · exact ih _ _ _ _ _ hs
        · split at hs
          · exact absurd hs (by simp)
          · exact ih _ _ _ _ _ hs
    · exact absurd hs (by simp)

/-- Every failure of the DEFLATE block loop is a `zlib.error`. -/
theorem inflateBlocks_error_zlib : ∀ (fuel : ℕ) (input acc : List ℕ)
    (e : PyErr), inflateBlocks fuel input acc = .error e →
    e = PyErr.zlibError := by
  intro fuel
  induction fuel with
  | zero =>
    intro input acc e h
    simp only [inflateBlocks, Except.error.injEq] at h
    exact h.symm
  | succ n ih =>
    intro input acc e h
    unfold inflateBlocks at h
    cases input with
    | nil =>
      simp only [Except.error.injEq] at h
      exact h.symm
    | cons b0 r =>
      simp only [] at h
      by_cases hbt : b0 / 2 % 4 = 0
      · rw [if_pos hbt] at h
        split at h
        · split at h
          · simp only [Except.error.injEq] at h
            exact h.symm
          · split at h
            · simp only [Except.error.injEq] at h
              exact h.symm
            · split at h
              · exact absurd h (by simp)
              · exact ih _ _ _ h
        · simp only [Except.error.injEq] at h
          exact h.symm
      · rw [if_neg hbt] at h
        simp only [Except.error.injEq] at h
        exact h.symm

/-- Every failure of `zlib.decompress` is a `zlib.error` — in particular
never a `ValueError`. -/
theorem zlibDecompress_error_zlib {l : List ℕ} {e : PyErr}
    (h : zlibDecompress l = .error e) : e = PyErr.zlibError := by
  unfold zlibDecompress at h
  match l with
  | [] =>
    simp only [Except.error.injEq] at h
    exact h.symm
  | [cmf] =>
    simp only [Except.error.injEq] at h
    exact h.symm
  | cmf :: flg :: rest =>
    simp only [] at h
    split at h
    · simp only [Except.error.injEq] at h
      exact h.symm
    · split at h
      · simp only [Except.error.injEq] at h
        exact h.symm
      · split at h
        · simp only [Except.error.injEq] at h
          exact h.symm
        · split at h
          · simp only [Except.error.injEq] at h
            exact h.symm
          · cases hib : inflateBlocks (rest.length + 1) rest [] with
            | error e2 =>
              rw [hib] at h
              simp only [Except.error.injEq] at h
              rw [← h]
              exact inflateBlocks_error_zlib _ _ _ _ hib
            | ok p =>
              obtain ⟨o, trail⟩ := p
              rw [hib] at h
              simp only [] at h
              split at h
              · split at h
                · exact absurd h (by simp)
                · simp only [Except.error.injEq] at h
                  exact h.symm
              · simp only [Except.error.injEq] at h
                exact h.symm

/-- An error of the effectful map comes from one of the element calls. -/
theorem exMap_error {α : Type} {f : ℕ → Except PyErr α} :
    ∀ {l : List ℕ} {e : PyErr}, exMap f l = .error e →
      ∃ x ∈ l, f x = .error e := by
  intro l
  induction l with
  | nil =>
    intro e h
    exact absurd h (by simp [exMap])
  | cons x xs ih =>
    intro e h
    unfold exMap at h
    cases hfx : f x with
    | error e2 =>
      simp only [hfx] at h
      simp only [Except.error.injEq] at h
      subst h
      exact ⟨x, List.mem_cons_self _ _, hfx⟩
    | ok y =>
      simp only [hfx] at h
      cases hm : exMap f xs with
      | error e2 =>
        simp only [hm] at h
        simp only [Except.error.injEq] at h
        subst h
        obtain ⟨z, hz, hfz⟩ := ih hm
        exact ⟨z, List.mem_cons_of_mem _ hz, hfz⟩
      | ok ys =>
        simp only [hm] at h
        exact absurd h (by simp)

/-- Every failure of the four channel reads is an `IndexError`. -/
theorem getPixel_error {raw : List ℕ} {i : ℕ} {e : PyErr}
    (h : getPixel raw i = .error e) : e = PyErr.indexError := by
  unfold getPixel at h
  split at h
  · exact absurd h (by simp)
  · simp only [Except.error.injEq] at h
    exact h.symm

/-- C5 (amended): `read_png` raises its `FormatError` (`ValueError`)
exactly at the code's two raise sites.  (i) A wrong 8-byte signature
raises "Not a valid PNG file".  (ii) An IHDR chunk — wherever it occurs,
behind any number of well-formed chunks that are not IEND (prior IHDR
chunks carrying the supported configuration) — whose bit depth is not 8
or whose colour type is not 6 raises "Only 8-bit RGBA PNGs supported".
(iii) Conversely, every `ValueError` the decoder can raise is one of
these two, the signature message exactly when the signature is wrong
(all other failures are `struct.error`, `zlib.error` or `IndexError`).
Missing header information before pixel data is *not* a detected
failure (see the counterexample). -/
theorem read_png_format_errors :
    (∀ bs : List ℕ, bs.take 8 ≠ pngSig →
        read_png bs = .error (.valueError ("Not a valid PNG file"))) ∧
    (∀ (chunks : List (List ℕ × List ℕ × List ℕ)) (data crc rest : List ℕ)
        (bd ct : ℕ),
        (∀ c ∈ chunks, c.1.length = 4 ∧ c.1 ≠ iendType ∧
            c.2.1.length < 2 ^ 32 ∧ c.2.2.length = 4 ∧
            (c.1 = ihdrType →
              10 ≤ c.2.1.length ∧ c.2.1.get? 8 = some 8 ∧
                c.2.1.get? 9 = some 6)) →
        data.get? 8 = some bd → data.get? 9 = some ct → (bd ≠ 8 ∨ ct ≠ 6) →
        data.length < 2 ^ 32 →
        read_png (pngSig ++ encodeChunks chunks
            (be32 data.length ++ (ihdrType ++ (data ++ (crc ++ rest))))) =
          .error (.valueError ("Only 8-bit RGBA PNGs supported"))) ∧
    (∀ (bs : List ℕ) (msg : String),
        read_png bs = .error (.valueError msg) →
        (bs.take 8 ≠ pngSig ∧ msg = "Not a valid PNG file") ∨
        (bs.take 8 = pngSig ∧ msg = "Only 8-bit RGBA PNGs supported")) := by
  refine ⟨?_, ?_, ?_⟩
  · intro bs h
    unfold read_png
    rw [if_pos h]
  · intro chunks data crc rest bd ct hwf h8 h9 hbad hlt
    have hsig8 : pngSig.length = 8 := rfl
    unfold read_png
    rw [if_neg (by rw [take_append_of_len _ _ hsig8]; simp)]
    rw [drop_append_of_len _ _ hsig8]
    rw [chunkScan_chunks_ihdr_bad chunks data crc rest bd ct hwf h8 h9 hbad hlt
      _ (by
        rw [List.length_append]
        have := encodeChunks_length_ge chunks
          (be32 data.length ++ (ihdrType ++ (data ++ (crc ++ rest))))
        omega) 0 0 []]
  · intro bs msg hok
    unfold read_png at hok
    split at hok
    · rename_i hsig
      simp only [Except.error.injEq, PyErr.valueError.injEq] at hok
      exact Or.inl ⟨hsig, hok.symm⟩
    · rename_i hsig
      have hsig2 : bs.take 8 = pngSig := not_not.mp hsig
      cases hscan : chunkScan (bs.length + 1) (bs.drop 8) 0 0 [] with
      | error e =>
        simp only [hscan] at hok
        simp only [Except.error.injEq] at hok
        subst hok
        exact Or.inr ⟨hsig2, chunkScan_valueError _ _ _ _ _ _ hscan⟩
      | ok t =>
        obtain ⟨w0, h0, comp⟩ := t
        simp only [hscan] at hok
        cases hz : zlibDecompress comp with
        | error e =>
          simp only [hz] at hok
          simp only [Except.error.injEq] at hok
          subst hok
          exact absurd (zlibDecompress_error_zlib hz) (by simp)
        | ok raw =>
          simp only [hz] at hok
          cases hrows : exMap (fun y =>
              exMap (fun x => getPixel raw (y * (1 + w0 * 4) + 1 + x * 4))
                (countUp 0 w0)) (countUp 0 h0) with
          | error e =>
            simp only [hrows] at hok
            simp only [Except.error.injEq] at hok
            subst hok
            obtain ⟨yy, _, hy⟩ := exMap_error hrows
            obtain ⟨xx, _, hxp⟩ := exMap_error hy
            exact absurd (getPixel_error hxp) (by simp)
          | ok rows =>
            simp only [hrows] at hok
            exact absurd hok (by simp)

/-- Witness for `read_png_format_errors`: the empty input fails the
signature check; a bit-depth-1 IHDR preceded by an IDAT chunk (the IHDR
is not the first chunk) fails the format check; and the signature
failure is classified by the converse direction. -/
theorem read_png_format_errors_witness :
    read_png [] = .error (.valueError ("Not a valid PNG file")) ∧
    read_png (pngSig ++ encodeChunks [(idatType, [7], [0, 0, 0, 0])]
        (be32 (13 : ℕ) ++ (ihdrType ++
          ([0, 0, 0, 1, 0, 0, 0, 1, 1, 6, 0, 0, 0] ++ ([0, 0, 0, 0] ++ []))))) =
      .error (.valueError ("Only 8-bit RGBA PNGs supported")) ∧
    (([] : List ℕ).take 8 ≠ pngSig ∧
        "Not a valid PNG file" = "Not a valid PNG file" ∨
      ([] : List ℕ).take 8 = pngSig ∧
        "Not a valid PNG file" = "Only 8-bit RGBA PNGs supported") :=
  ⟨read_png_format_errors.1 [] (by decide),
   read_png_format_errors.2.1 [(idatType, [7], [0, 0, 0, 0])]
     [0, 0, 0, 1, 0, 0, 0, 1, 1, 6, 0, 0, 0] [0, 0, 0, 0] [] 1 6
     (by decide) (by decide) (by decide) (by decide) (by decide),
   read_png_format_errors.2.2 [] "Not a valid PNG file"
     (read_png_format_errors.1 [] (by decide))⟩

/-- C7: whenever `read_png` returns successfully, the pixel buffer has
exactly `width * height` entries; the pixel at row-major position
`(y, x)` is the (R, G, B, A) 4-tuple read from the four consecutive
decompressed bytes at offset `y*(1 + 4*width) + 1 + 4*x` (top-to-bottom,
left-to-right); and when the input consists of bytes, every channel is
an 8-bit value. -/
theorem read_png_raster_invariant (bs : List ℕ) (w h : ℕ) (px : List Pixel)
    (hok : read_png bs = .ok (w, h, px)) :
    px.length = w * h ∧
    (∃ comp raw,
        chunkScan (bs.length + 1) (bs.drop 8) 0 0 [] = .ok (w, h, comp) ∧
        zlibDecompress comp = .ok raw ∧
        ∀ y x, y < h → x < w →
          ∃ p, px.get? (y * w + x) = some p ∧
            getPixel raw (y * (1 + w * 4) + 1 + x * 4) = .ok p) ∧
    ((∀ b ∈ bs, b < 256) →
      ∀ p ∈ px, p.1 < 256 ∧ p.2.1 < 256 ∧ p.2.2.1 < 256 ∧ p.2.2.2 < 256) := by
  unfold read_png at hok
  split at hok
  · exact absurd hok (by simp)
  · cases hscan : chunkScan (bs.length + 1) (bs.drop 8) 0 0 [] with
    | error e =>
      simp only [hscan] at hok
      exact absurd hok (by simp)
    | ok t =>
      obtain ⟨w0, h0, comp⟩ := t
      simp only [hscan] at hok
      cases hz : zlibDecompress comp with
      | error e =>
        simp only [hz] at hok
        exact absurd hok (by simp)
      | ok raw =>
        simp only [hz] at hok
        cases hrows : exMap (fun y =>
            exMap (fun x => getPixel raw (y * (1 + w0 * 4) + 1 + x * 4))
              (countUp 0 w0)) (countUp 0 h0) with
        | error e =>
          simp only [hrows] at hok
          exact absurd hok (by simp)
        | ok rows =>
          simp only [hrows, Except.ok.injEq, Prod.mk.injEq] at hok
          obtain ⟨hw, hh, hpx⟩ := hok
          subst hw
          subst hh
          subst hpx
          have hrowlen : rows.length = h0 := by
            have := exMap_length hrows
            rwa [countUp_length] at this
          have hrl : ∀ r ∈ rows, r.length = w0 := by
            intro r hr
            obtain ⟨y, _, hfy⟩ := exMap_mem hrows r hr
            have := exMap_length hfy
            rwa [countUp_length] at this
          refine ⟨?_, ?_, ?_⟩
          · rw [concatAll_length_const w0 rows hrl, hrowlen, Nat.mul_comm]
          · refine ⟨comp, raw, rfl, hz, ?_⟩
            intro y x hy hx
            obtain ⟨row, hrowy, hfy⟩ := exMap_get hrows y y
              (by simpa using countUp_get? h0 0 y hy)
            obtain ⟨p, hpr, hfp⟩ := exMap_get hfy x x
              (by simpa using countUp_get? w0 0 x hx)
            refine ⟨p, ?_, hfp⟩
            rw [concatAll_get? w0 rows y x hrl hx row hrowy]
            exact hpr
          · intro hbytes p hp
            have hbnd : ∀ {z : ℕ}, z ∈ raw → z < 256 := by
              intro z hzr
              have h1 := zlibDecompress_mem hz z hzr
              have h2 := chunkScan_mem _ _ _ _ _ _ _ _ hscan z h1
              rcases h2 with h2 | h2
              · cases h2
              · exact hbytes z (List.drop_subset _ _ h2)
            obtain ⟨row, hrow, hpr⟩ := mem_concatAll hp
            obtain ⟨y, _, hfy⟩ := exMap_mem hrows row hrow
            obtain ⟨x, _, hfp⟩ := exMap_mem hfy p hpr
            unfold getPixel at hfp
            split at hfp
            · rename_i r g b a hr hg hb2 ha2
              simp only [Except.ok.injEq] at hfp
              subst hfp
              exact ⟨hbnd (List.get?_mem hr), hbnd (List.get?_mem hg),
                hbnd (List.get?_mem hb2), hbnd (List.get?_mem ha2)⟩
            · exact absurd hfp (by simp)

/-- A well-formed 1×1 RGBA PNG (pixel (10, 20, 30, 255), stored-block
zlib stream, filter byte 0). -/
def png1x1 : List ℕ :=
  pngSig ++ be32 13 ++ ihdrType ++
    [0, 0, 0, 1, 0, 0, 0, 1, 8, 6, 0, 0, 0] ++ [0, 0, 0, 0] ++
    be32 16 ++ idatType ++
    [120, 1, 1, 5, 0, 250, 255, 0, 10, 20, 30, 255, 1, 164, 1, 60] ++
    [0, 0, 0, 0] ++ be32 0 ++ iendType ++ [0, 0, 0, 0]

/-- Witness for `read_png_raster_invariant`: a concrete 1×1 PNG decodes
successfully and its pixel buffer length matches `width * height`. -/
theorem read_png_raster_invariant_witness :
    read_png png1x1 = .ok (1, 1, [(10, 20, 30, 255)]) ∧
    ([((10 : ℕ), (20 : ℕ), (30 : ℕ), (255 : ℕ))] : List Pixel).length = 1 * 1 :=
  ⟨by decide,
   (read_png_raster_invariant png1x1 1 1 [(10, 20, 30, 255)] (by decide)).1⟩

end HeadlessTest
